import Mathlib

/-!
Verification of the llvm-mca Load/Store Unit (LSUnit.cpp).

This file gives a shallow embedding of `llvm/lib/MCA/HardwareUnits/LSUnit.cpp`
(the memory-access descriptor, the LSU base bookkeeping and the LSU dispatch
policy) and proves properties of the embedding.

Modelling conventions:
- machine integers (`uint64_t` addresses and sizes) are modelled as `Nat`
  with explicit reduction modulo `2 ^ 64` at the arithmetic operations the
  C++ code performs on `uint64_t`;
- `MemoryGroup` and the small inline helpers of `LSUnit.h` are not part of
  the provided sources; those definitions are modelled from the
  specification's words and are marked `Modelled from the spec:`;
- fatal assertions are modelled by `Option`-returning operations (`none`
  means the assertion fired);
- the metadata-registry lookup `getMemoryAccessMD` is collapsed into an
  `Option MDMemoryAccess` field carried by the instruction, which is exactly
  the value the C++ lookup resolves for a fixed registry.
-/

/-- The modulus of `uint64_t` arithmetic. -/
def U64 : Nat := 2 ^ 64

/-- Modelled from the spec: the bundle of sub-accesses carried by a compound
memory access, with the smallest covering interval `[ExtendedAddr,
ExtendedAddr + ExtendedSize)`.  Each sub-access is `(is-store, addr, size)`. -/
structure BundledMemoryAccesses where
  ExtendedAddr : Nat
  ExtendedSize : Nat
  Accesses : List (Bool × Nat × Nat)
deriving DecidableEq

/-- The per-instruction memory-access descriptor (`MDMemoryAccess`). -/
structure MDMemoryAccess where
  IsStore : Bool
  Addr : Nat
  Size : Nat
  BundledMAs : Option BundledMemoryAccesses
deriving DecidableEq

/-- `MDMemoryAccess::getExtendedStartAddr` (LSUnit.cpp lines 32-37). -/
def MDMemoryAccess.getExtendedStartAddr (m : MDMemoryAccess) : Nat :=
  match m.BundledMAs with
  | some b => b.ExtendedAddr
  | none => m.Addr

/-- `MDMemoryAccess::getExtendedEndAddr` (LSUnit.cpp lines 39-44); the
`uint64_t` addition wraps modulo `2 ^ 64`. -/
def MDMemoryAccess.getExtendedEndAddr (m : MDMemoryAccess) : Nat :=
  match m.BundledMAs with
  | some b => (b.ExtendedAddr + b.ExtendedSize) % U64
  | none => (m.Addr + m.Size) % U64

/-- `MDMemoryAccess::append` (LSUnit.cpp lines 46-60).  The bundle seed
`BundledMemoryAccesses(Addr, Size)` is modelled from the spec: the bundle is
lazily materialized, seeded with the original access.  The `uint64_t`
additions and the subtraction `NewEnd - ExtendedAddr` wrap modulo `2 ^ 64`. -/
def MDMemoryAccess.append (m : MDMemoryAccess) (NewIsStore : Bool)
    (NewAddr : Nat) (NewSize : Nat) : MDMemoryAccess :=
  let b0 := match m.BundledMAs with
            | some b => b
            | none => ⟨m.Addr, m.Size, [(m.IsStore, m.Addr, m.Size)]⟩
  let b1 := if NewAddr < b0.ExtendedAddr then { b0 with ExtendedAddr := NewAddr } else b0
  let NewEnd := (NewAddr + NewSize) % U64
  let b2 := if (b1.ExtendedAddr + b1.ExtendedSize) % U64 < NewEnd then
              { b1 with ExtendedSize := (NewEnd + (U64 - b1.ExtendedAddr % U64)) % U64 }
            else b1
  { m with BundledMAs := some { b2 with Accesses := b2.Accesses ++ [(NewIsStore, NewAddr, NewSize)] } }

/-- The list of sub-accesses of a descriptor: the bundled accesses when a
bundle exists, otherwise the single original access. -/
def MDMemoryAccess.subAccesses (m : MDMemoryAccess) : List (Bool × Nat × Nat) :=
  match m.BundledMAs with
  | some b => b.Accesses
  | none => [(m.IsStore, m.Addr, m.Size)]

/-- Modelled from the spec: two byte ranges `[a1, a1+s1)` and `[a2, a2+s2)`
alias iff they overlap. -/
def accessOverlap (x y : Bool × Nat × Nat) : Bool :=
  decide (x.2.1 < y.2.1 + y.2.2) && decide (y.2.1 < x.2.1 + x.2.2)

/-- Modelled from the spec: a memory group (a node of the dependency DAG).
`Succs` is the successor list with the per-edge `is_data_dependency` flag;
the counters are those named by the specification's data model.  The class
itself lives in `LSUnit.h`, which is not part of the provided sources. -/
structure MemoryGroup where
  NumPredecessors : Nat
  NumExecutedPredecessors : Nat
  NumInstructions : Nat
  NumExecuting : Nat
  NumExecuted : Nat
  Succs : List (Nat × Bool)
  MemAccesses : List MDMemoryAccess
deriving DecidableEq

/-- A freshly created (empty) memory group. -/
def emptyGroup : MemoryGroup := ⟨0, 0, 0, 0, 0, [], []⟩

/-- Modelled from the spec: a group is executing iff it has at least one
instruction not yet executed and at least one executing. -/
def MemoryGroup.isExecuting (g : MemoryGroup) : Bool :=
  decide (0 < g.NumExecuting) && decide (g.NumExecuted < g.NumInstructions)

/-- Modelled from the spec: a group is executed when all of its instructions
have executed. -/
def MemoryGroup.isExecuted (g : MemoryGroup) : Bool :=
  g.NumExecuted == g.NumInstructions

/-- Modelled from the spec: a group aliases an incoming access iff any
sub-access of any of the group's descriptors overlaps any sub-access of the
incoming descriptor. -/
def MemoryGroup.isMemAccessAlias (g : MemoryGroup) (m : MDMemoryAccess) : Bool :=
  g.MemAccesses.any (fun m2 => m2.subAccesses.any (fun x => m.subAccesses.any (fun y => accessOverlap x y)))

/-- The instruction descriptor: only the two flags the LSU consults. -/
structure InstrDesc where
  MayLoad : Bool
  MayStore : Bool
deriving DecidableEq

/-- An instruction as the LSU sees it: descriptor, barrier flags, the
resolved optional memory-access metadata, and the stamped LSU group token. -/
structure Instr where
  Desc : InstrDesc
  IsAStoreBarrier : Bool
  IsALoadBarrier : Bool
  MDA : Option MDMemoryAccess
  LSUTokenID : Nat
deriving DecidableEq

/-- Modelled from the spec: an instruction is a memory operation iff it may
load or may store (`Instruction::isMemOp`, declared outside the provided
sources). -/
def isMemOp (i : Instr) : Bool := i.Desc.MayLoad || i.Desc.MayStore

/-- Modelled from the spec: an instruction is a store iff `MayStore` holds or
its memory-access metadata indicates a store (`LSUnit.h` helper `isStore`). -/
def isStore (Desc : InstrDesc) (MaybeMDA : Option MDMemoryAccess) : Bool :=
  Desc.MayStore || (match MaybeMDA with | some m => m.IsStore | none => false)

/-- The state of the LSU: queue sizes and occupancies, the alias-policy flag,
the group allocator, the group table and the four current pointers. -/
structure LSUState where
  LQSize : Nat
  SQSize : Nat
  UsedLQEntries : Nat
  UsedSQEntries : Nat
  NoAlias : Bool
  NextGroupID : Nat
  Groups : List (Nat × MemoryGroup)
  CurrentLoadGroupID : Nat
  CurrentStoreGroupID : Nat
  CurrentLoadBarrierGroupID : Nat
  CurrentStoreBarrierGroupID : Nat
deriving DecidableEq

/-- The freshly constructed LSU (LSUnit.cpp lines 71-88 with explicit queue
sizes; the `MCExtraProcessorInfo` fallback only chooses the sizes and is not
needed by any claim). -/
def initLSU (LQ SQ : Nat) (AssumeNoAlias : Bool) : LSUState :=
  ⟨LQ, SQ, 0, 0, AssumeNoAlias, 1, [], 0, 0, 0, 0⟩

/-- Association-list lookup for the group table. -/
def lookupGID : List (Nat × MemoryGroup) → Nat → Option MemoryGroup
  | [], _ => none
  | (k, g) :: t, gid => if k = gid then some g else lookupGID t gid

/-- Find a group by ID in the table. -/
def lookupGroup (s : LSUState) (gid : Nat) : Option MemoryGroup := lookupGID s.Groups gid

/-- `LSUnitBase::isValidGroupID`. -/
def isValidGroupID (s : LSUState) (gid : Nat) : Bool := (lookupGID s.Groups gid).isSome

/-- `LSUnitBase::getGroup`; the C++ asserts the ID is live, the model returns
the empty group on a dead ID (no claim exercises that case). -/
def getGroup (s : LSUState) (gid : Nat) : MemoryGroup := (lookupGID s.Groups gid).getD emptyGroup

/-- Update the entry stored under a key of the group table. -/
def updateGID : List (Nat × MemoryGroup) → Nat → (MemoryGroup → MemoryGroup) → List (Nat × MemoryGroup)
  | [], _, _ => []
  | (k, g) :: t, gid, f =>
    if k = gid then (k, f g) :: updateGID t gid f else (k, g) :: updateGID t gid f

/-- Remove the entry stored under a key of the group table. -/
def removeGID : List (Nat × MemoryGroup) → Nat → List (Nat × MemoryGroup)
  | [], _ => []
  | (k, g) :: t, gid =>
    if k = gid then removeGID t gid else (k, g) :: removeGID t gid

/-- Apply a function to the group stored under `gid`. -/
def setGroup (s : LSUState) (gid : Nat) (f : MemoryGroup → MemoryGroup) : LSUState :=
  { s with Groups := updateGID s.Groups gid f }

/-- `Groups.erase(It)` in `LSUnitBase::onInstructionExecuted`. -/
def eraseGroup (s : LSUState) (gid : Nat) : LSUState :=
  { s with Groups := removeGID s.Groups gid }

/-- Modelled from the spec: `createMemoryGroup` allocates the next group ID
(the allocator starts at 1, LSUnit.cpp line 74) and inserts an empty group;
the allocated ID is the pre-state's `NextGroupID`. -/
def createMemoryGroup (s : LSUState) : LSUState :=
  { s with Groups := (s.NextGroupID, emptyGroup) :: s.Groups,
           NextGroupID := s.NextGroupID + 1 }

/-- Modelled from the spec: acquire a load-queue slot (+1). -/
def acquireLQSlot (s : LSUState) : LSUState := { s with UsedLQEntries := s.UsedLQEntries + 1 }

/-- Modelled from the spec: acquire a store-queue slot (+1). -/
def acquireSQSlot (s : LSUState) : LSUState := { s with UsedSQEntries := s.UsedSQEntries + 1 }

/-- Modelled from the spec: release a load-queue slot (-1; release requires
the counter to be positive). -/
def releaseLQSlot (s : LSUState) : LSUState := { s with UsedLQEntries := s.UsedLQEntries - 1 }

/-- Modelled from the spec: release a store-queue slot (-1). -/
def releaseSQSlot (s : LSUState) : LSUState := { s with UsedSQEntries := s.UsedSQEntries - 1 }

/-- Modelled from the spec: the load queue is full iff its size is non-zero
and the occupancy equals the size. -/
def isLQFull (s : LSUState) : Bool := (!(s.LQSize == 0)) && (s.UsedLQEntries == s.LQSize)

/-- Modelled from the spec: the store queue is full iff its size is non-zero
and the occupancy equals the size. -/
def isSQFull (s : LSUState) : Bool := (!(s.SQSize == 0)) && (s.UsedSQEntries == s.SQSize)

/-- `LSUnitBase::noAlias` (LSUnit.cpp lines 100-116): with metadata present
the algebraic alias test on the group decides; otherwise the construction
flag `NoAlias` (assume-no-alias) is returned. -/
def noAlias (s : LSUState) (GID : Nat) (MDA : Option MDMemoryAccess) : Bool :=
  match MDA with
  | some m => !(getGroup s GID).isMemAccessAlias m
  | none => s.NoAlias

/-- Modelled from the spec: `MemoryGroup::addInstruction` increments the
instruction count of the group. -/
def addInstructionTo (s : LSUState) (gid : Nat) : LSUState :=
  setGroup s gid (fun g => { g with NumInstructions := g.NumInstructions + 1 })

/-- Modelled from the spec: `MemoryGroup::addMemAccess` appends the
descriptor to the group's bundle when it is present. -/
def addMemAccessTo (s : LSUState) (gid : Nat) (MDA : Option MDMemoryAccess) : LSUState :=
  match MDA with
  | some m => setGroup s gid (fun g => { g with MemAccesses := g.MemAccesses ++ [m] })
  | none => s

/-- Modelled from the spec: `MemoryGroup::addSuccessor` records the edge
(with its `is_data_dependency` flag) on the source and increments the
target's predecessor count. -/
def addSuccessor (s : LSUState) (src tgt : Nat) (IsDataDependent : Bool) : LSUState :=
  let s1 := setGroup s src (fun g => { g with Succs := g.Succs ++ [(tgt, IsDataDependent)] })
  setGroup s1 tgt (fun g => { g with NumPredecessors := g.NumPredecessors + 1 })

/-- The new-group condition for a pure load (LSUnit.cpp lines 227-231). -/
def shouldCreateANewGroup (s : LSUState) (i : Instr) : Bool :=
  let ImmediateLoadDominator := max s.CurrentLoadGroupID s.CurrentLoadBarrierGroupID
  i.IsALoadBarrier || ImmediateLoadDominator == 0 ||
    s.CurrentLoadBarrierGroupID == ImmediateLoadDominator ||
    decide (ImmediateLoadDominator ≤ s.CurrentStoreGroupID) ||
    (getGroup s ImmediateLoadDominator).isExecuting

/-- Case A of `LSUnit::dispatch` (LSUnit.cpp lines 157-207): the instruction
is a store.  The current pointers are read from `s`; no operation before a
read modifies them, so this matches the C++ member reads. -/
def dispatchStore (s : LSUState) (i : Instr) : LSUState × Nat :=
  let NewGID := s.NextGroupID
  let s1 := createMemoryGroup s
  let s2 := addMemAccessTo (addInstructionTo s1 NewGID) NewGID i.MDA
  let ImmediateLoadDominator := max s.CurrentLoadGroupID s.CurrentLoadBarrierGroupID
  let s3 := if ImmediateLoadDominator ≠ 0 then
              addSuccessor s2 ImmediateLoadDominator NewGID (!(noAlias s2 ImmediateLoadDominator i.MDA))
            else s2
  let s4 := if s.CurrentStoreBarrierGroupID ≠ 0 then
              addSuccessor s3 s.CurrentStoreBarrierGroupID NewGID true
            else s3
  let s5 := if s.CurrentStoreGroupID ≠ 0 ∧ s.CurrentStoreGroupID ≠ s.CurrentStoreBarrierGroupID then
              addSuccessor s4 s.CurrentStoreGroupID NewGID (!(noAlias s4 s.CurrentStoreGroupID i.MDA))
            else s4
  let s6 := { s5 with CurrentStoreGroupID := NewGID }
  let s7 := if i.IsAStoreBarrier then { s6 with CurrentStoreBarrierGroupID := NewGID } else s6
  let s8 := if i.Desc.MayLoad then
              let t := { s7 with CurrentLoadGroupID := NewGID }
              if i.IsALoadBarrier then { t with CurrentLoadBarrierGroupID := NewGID } else t
            else s7
  (s8, NewGID)

/-- Case B of `LSUnit::dispatch` (LSUnit.cpp lines 210-287): the instruction
is a pure load. -/
def dispatchLoad (s : LSUState) (i : Instr) : LSUState × Nat :=
  let ImmediateLoadDominator := max s.CurrentLoadGroupID s.CurrentLoadBarrierGroupID
  if shouldCreateANewGroup s i then
    let NewGID := s.NextGroupID
    let s1 := createMemoryGroup s
    let s2 := addMemAccessTo (addInstructionTo s1 NewGID) NewGID i.MDA
    let s3 := if s.CurrentStoreGroupID ≠ 0 ∧ noAlias s2 s.CurrentStoreGroupID i.MDA = false then
                addSuccessor s2 s.CurrentStoreGroupID NewGID true
              else s2
    let s4 := if i.IsALoadBarrier then
                (if ImmediateLoadDominator ≠ 0 then
                   addSuccessor s3 ImmediateLoadDominator NewGID true
                 else s3)
              else
                (if s.CurrentLoadBarrierGroupID ≠ 0 then
                   addSuccessor s3 s.CurrentLoadBarrierGroupID NewGID true
                 else s3)
    let s5 := { s4 with CurrentLoadGroupID := NewGID }
    let s6 := if i.IsALoadBarrier then { s5 with CurrentLoadBarrierGroupID := NewGID } else s5
    (s6, NewGID)
  else
    let s1 := addMemAccessTo (addInstructionTo s s.CurrentLoadGroupID) s.CurrentLoadGroupID i.MDA
    (s1, s.CurrentLoadGroupID)

/-- `LSUnit::dispatch` (LSUnit.cpp lines 145-287): acquire the queue slots,
then run the store case or the pure-load case. -/
def dispatch (s : LSUState) (i : Instr) : LSUState × Nat :=
  let s1 := if i.Desc.MayLoad then acquireLQSlot s else s
  let s2 := if isStore i.Desc i.MDA then acquireSQSlot s1 else s1
  if isStore i.Desc i.MDA then dispatchStore s2 i else dispatchLoad s2 i

/-- The availability verdicts of `LSUnit::isAvailable`. -/
inductive LSUStatus where
  | LSU_AVAILABLE
  | LSU_LQUEUE_FULL
  | LSU_SQUEUE_FULL
deriving DecidableEq

/-- `LSUnit::isAvailable` (LSUnit.cpp lines 289-297). -/
def isAvailable (s : LSUState) (i : Instr) : LSUStatus :=
  if i.Desc.MayLoad && isLQFull s then .LSU_LQUEUE_FULL
  else if isStore i.Desc i.MDA && isSQFull s then .LSU_SQUEUE_FULL
  else .LSU_AVAILABLE

/-- `LSUnitBase::onInstructionRetired` (LSUnit.cpp lines 308-326). -/
def onInstructionRetired (s : LSUState) (i : Instr) : LSUState :=
  let s1 := if i.Desc.MayLoad then releaseLQSlot s else s
  if isStore i.Desc i.MDA then releaseSQSlot s1 else s1

/-- Modelled from the spec: the per-group effect of
`MemoryGroup::onInstructionExecuted` on its own counters. -/
def MemoryGroup.onInstructionExecutedStep (g : MemoryGroup) : MemoryGroup :=
  { g with NumExecuted := g.NumExecuted + 1, NumExecuting := g.NumExecuting - 1 }

/-- Modelled from the spec: when a group becomes executed it increments the
executed-predecessor counter of each successor. -/
def bumpExecutedPredecessors (s : LSUState) (succs : List (Nat × Bool)) : LSUState :=
  succs.foldl (fun st p => setGroup st p.1 (fun g => { g with NumExecutedPredecessors := g.NumExecutedPredecessors + 1 })) s

/-- `LSUnitBase::onInstructionExecuted` (LSUnit.cpp lines 299-306): look up
the stamped group (the assertion on a dead ID is modelled by `none`), apply
the group's executed bookkeeping, and erase the group when it is fully
executed. -/
def LSUnitBase_onInstructionExecuted (s : LSUState) (i : Instr) : Option LSUState :=
  match lookupGID s.Groups i.LSUTokenID with
  | none => none
  | some g =>
    let g1 := g.onInstructionExecutedStep
    let s1 := setGroup s i.LSUTokenID MemoryGroup.onInstructionExecutedStep
    if g1.isExecuted then
      some (eraseGroup (bumpExecutedPredecessors s1 g1.Succs) i.LSUTokenID)
    else
      some s1

/-- `LSUnit::onInstructionExecuted` (LSUnit.cpp lines 328-345): a non-memory
operation returns immediately; otherwise run the base bookkeeping and clear
every current pointer that still references a group ID that is no longer
live. -/
def LSUnit_onInstructionExecuted (s : LSUState) (i : Instr) : Option LSUState :=
  if !(isMemOp i) then some s
  else
    match LSUnitBase_onInstructionExecuted s i with
    | none => none
    | some s1 =>
      if isValidGroupID s1 i.LSUTokenID then some s1
      else
        some { s1 with
          CurrentLoadGroupID := if s1.CurrentLoadGroupID = i.LSUTokenID then 0 else s1.CurrentLoadGroupID,
          CurrentStoreGroupID := if s1.CurrentStoreGroupID = i.LSUTokenID then 0 else s1.CurrentStoreGroupID,
          CurrentLoadBarrierGroupID := if s1.CurrentLoadBarrierGroupID = i.LSUTokenID then 0 else s1.CurrentLoadBarrierGroupID,
          CurrentStoreBarrierGroupID := if s1.CurrentStoreBarrierGroupID = i.LSUTokenID then 0 else s1.CurrentStoreBarrierGroupID }

/-- `LSUnitBase::cycleEvent` ticks every live group; modelled from the spec,
`MemoryGroup::cycleEvent` is stateless with respect to groups, edges,
counters and pointers, so the tick is the identity on this state. -/
def cycleEvent (s : LSUState) : LSUState := s

/-- One scheduler-visible LSU operation. -/
inductive LSUEvent where
  | dispatchEv (i : Instr)
  | executeEv (i : Instr)
  | retireEv (i : Instr)
  | cycleEv
deriving DecidableEq

/-- Run one LSU operation; `none` models a fatal assertion (dispatch or
retire of a non-memory operation, execute of an unknown group ID). -/
def stepEvent (s : LSUState) : LSUEvent → Option LSUState
  | .dispatchEv i => if isMemOp i then some (dispatch s i).1 else none
  | .executeEv i => LSUnit_onInstructionExecuted s i
  | .retireEv i => if i.Desc.MayLoad || isStore i.Desc i.MDA then some (onInstructionRetired s i) else none
  | .cycleEv => some (cycleEvent s)

/-- Run a sequence of LSU operations. -/
def runEvents : LSUState → List LSUEvent → Option LSUState
  | s, [] => some s
  | s, e :: t =>
    match stepEvent s e with
    | none => none
    | some s1 => runEvents s1 t

/-- Dispatch a list of instructions in order. -/
def dispatchAll (s : LSUState) (l : List Instr) : LSUState :=
  l.foldl (fun st i => (dispatch st i).1) s

/-- There is a successor edge from group `a` to group `b` in the table. -/
def succEdge (s : LSUState) (a b : Nat) : Prop :=
  ∃ g d, lookupGID s.Groups a = some g ∧ (b, d) ∈ g.Succs

/-- Number of dispatched may-load instructions in an event list. -/
def dispLoadCount : List LSUEvent → Nat
  | [] => 0
  | .dispatchEv i :: t => (if i.Desc.MayLoad then 1 else 0) + dispLoadCount t
  | _ :: t => dispLoadCount t

/-- Number of dispatched store instructions in an event list. -/
def dispStoreCount : List LSUEvent → Nat
  | [] => 0
  | .dispatchEv i :: t => (if isStore i.Desc i.MDA then 1 else 0) + dispStoreCount t
  | _ :: t => dispStoreCount t

/-- Number of retired may-load instructions in an event list. -/
def retLoadCount : List LSUEvent → Nat
  | [] => 0
  | .retireEv i :: t => (if i.Desc.MayLoad then 1 else 0) + retLoadCount t
  | _ :: t => retLoadCount t

/-- Number of retired store instructions in an event list. -/
def retStoreCount : List LSUEvent → Nat
  | [] => 0
  | .retireEv i :: t => (if isStore i.Desc i.MDA then 1 else 0) + retStoreCount t
  | _ :: t => retStoreCount t

/-- Every non-zero current pointer references a live group. -/
def pointerLive (s : LSUState) : Prop :=
  (s.CurrentLoadGroupID = 0 ∨ isValidGroupID s s.CurrentLoadGroupID = true) ∧
  (s.CurrentStoreGroupID = 0 ∨ isValidGroupID s s.CurrentStoreGroupID = true) ∧
  (s.CurrentLoadBarrierGroupID = 0 ∨ isValidGroupID s s.CurrentLoadBarrierGroupID = true) ∧
  (s.CurrentStoreBarrierGroupID = 0 ∨ isValidGroupID s s.CurrentStoreBarrierGroupID = true)

/-! ### Lookup lemmas for the group table -/

theorem lookupGID_update (l : List (Nat × MemoryGroup)) (k : Nat)
    (f : MemoryGroup → MemoryGroup) (j : Nat) :
    lookupGID (updateGID l k f) j =
      if j = k then (lookupGID l j).map f else lookupGID l j := by
  induction l with
  | nil => simp [lookupGID, updateGID]
  | cons hd tl ih =>
    obtain ⟨a, g⟩ := hd
    by_cases hak : a = k
    · subst hak
      by_cases haj : a = j
      · subst haj
        simp [updateGID, lookupGID]
      · simp [updateGID, lookupGID, haj, ih]
    · by_cases haj : a = j
      · subst haj
        simp [updateGID, lookupGID, hak, Ne.symm hak]
      · simp [updateGID, lookupGID, hak, haj, ih]

theorem lookupGID_remove (l : List (Nat × MemoryGroup)) (k j : Nat) :
    lookupGID (removeGID l k) j = if j = k then none else lookupGID l j := by
  induction l with
  | nil => simp [lookupGID, removeGID]
  | cons hd tl ih =>
    obtain ⟨a, g⟩ := hd
    by_cases hak : a = k
    · subst hak
      by_cases haj : a = j
      · subst haj
        simp [removeGID, lookupGID, ih]
      · simp [removeGID, lookupGID, haj, ih]
    · by_cases haj : a = j
      · subst haj
        simp [removeGID, lookupGID, hak, Ne.symm hak]
      · simp [removeGID, lookupGID, hak, haj, ih]

theorem lookupGroup_setGroup (s : LSUState) (k : Nat) (f : MemoryGroup → MemoryGroup) (j : Nat) :
    lookupGroup (setGroup s k f) j =
      if j = k then (lookupGroup s j).map f else lookupGroup s j := by
  simp [lookupGroup, setGroup, lookupGID_update]

theorem lookupGroup_create (s : LSUState) (j : Nat) :
    lookupGroup (createMemoryGroup s) j =
      if s.NextGroupID = j then some emptyGroup else lookupGroup s j := by
  simp [lookupGroup, createMemoryGroup, lookupGID]

theorem lookupGroup_erase (s : LSUState) (k j : Nat) :
    lookupGroup (eraseGroup s k) j = if j = k then none else lookupGroup s j := by
  simp [lookupGroup, eraseGroup, lookupGID_remove]

/-! ### Claims C7, C9, C10, C8 -/

/-- C7: `isAvailable` returns the load-queue-full verdict iff the instruction
may load and the load queue is full (size non-zero and occupancy equal to
size); otherwise the store-queue-full verdict iff the instruction is a store
and the store queue is full; otherwise the available verdict.  The verdict is
a value of the status type `LSUStatus`, not a fatal error. -/
theorem claim7_isAvailable_verdicts (s : LSUState) (i : Instr) :
    (isAvailable s i = LSUStatus.LSU_LQUEUE_FULL ↔
      (i.Desc.MayLoad = true ∧ s.LQSize ≠ 0 ∧ s.UsedLQEntries = s.LQSize)) ∧
    (isAvailable s i = LSUStatus.LSU_SQUEUE_FULL ↔
      (¬(i.Desc.MayLoad = true ∧ s.LQSize ≠ 0 ∧ s.UsedLQEntries = s.LQSize) ∧
       isStore i.Desc i.MDA = true ∧ s.SQSize ≠ 0 ∧ s.UsedSQEntries = s.SQSize)) ∧
    (isAvailable s i = LSUStatus.LSU_AVAILABLE ↔
      (¬(i.Desc.MayLoad = true ∧ s.LQSize ≠ 0 ∧ s.UsedLQEntries = s.LQSize) ∧
       ¬(isStore i.Desc i.MDA = true ∧ s.SQSize ≠ 0 ∧ s.UsedSQEntries = s.SQSize))) := by
  unfold isAvailable isLQFull isSQFull
  by_cases h1 : i.Desc.MayLoad = true <;>
  by_cases h2 : s.LQSize = 0 <;>
  by_cases h3 : s.UsedLQEntries = s.LQSize <;>
  by_cases h4 : isStore i.Desc i.MDA = true <;>
  by_cases h5 : s.SQSize = 0 <;>
  by_cases h6 : s.UsedSQEntries = s.SQSize <;>
  simp_all

/-- C9: with metadata present, `noAlias` is the negation of the group/access
alias test and ignores the `NoAlias` construction flag; with metadata absent
it returns the flag. -/
theorem claim9_noAlias_semantics (s : LSUState) (gid : Nat) (m : MDMemoryAccess) (b : Bool) :
    noAlias s gid (some m) = !(getGroup s gid).isMemAccessAlias m ∧
    noAlias s gid none = s.NoAlias ∧
    noAlias { s with NoAlias := b } gid (some m) = noAlias s gid (some m) :=
  ⟨rfl, rfl, rfl⟩

/-- C10: the policy-level executed hook is a silent no-op on a non-memory
operation (it returns the unchanged state before any group lookup, even if
the stamped token is unknown), while for a memory operation an unknown
stamped group ID is the fatal assertion (modelled by `none`). -/
theorem claim10_nonmemop_execute_noop :
    (∀ s i, isMemOp i = false → LSUnit_onInstructionExecuted s i = some s) ∧
    (∀ s i, isMemOp i = true → lookupGroup s i.LSUTokenID = none →
      LSUnit_onInstructionExecuted s i = none) := by
  constructor
  · intro s i h
    simp [LSUnit_onInstructionExecuted, h]
  · intro s i h hlk
    have hlk' : lookupGID s.Groups i.LSUTokenID = none := hlk
    simp [LSUnit_onInstructionExecuted, LSUnitBase_onInstructionExecuted, h, hlk']

/-- C10 witness: the non-memory operation with a garbage token 7 is a no-op
on the fresh LSU; the memory operation with unknown token 5 hits the fatal
path. -/
theorem claim10_witness :
    LSUnit_onInstructionExecuted (initLSU 4 4 false) ⟨⟨false, false⟩, false, false, none, 7⟩ =
      some (initLSU 4 4 false) ∧
    LSUnit_onInstructionExecuted (initLSU 4 4 false) ⟨⟨true, false⟩, false, false, none, 5⟩ = none :=
  ⟨claim10_nonmemop_execute_noop.1 _ _ rfl, claim10_nonmemop_execute_noop.2 _ _ rfl rfl⟩

/-- C8 (failing input): for the descriptor `(addr 100, size 50)` with a single
`append (is-store false, addr 0, size 10)`, the code lowers `ExtendedAddr` to
0 without widening `ExtendedSize`, so the extended interval becomes
`[0, 50)`; the original sub-access `(100, 50)` is no longer covered:
`extended_end() = 50 < 100 + 50`, contradicting the claimed invariant. -/
theorem claim8_append_shrinks_extended_interval :
    ((MDMemoryAccess.mk false 100 50 none).append false 0 10).getExtendedStartAddr = 0 ∧
    ((MDMemoryAccess.mk false 100 50 none).append false 0 10).getExtendedEndAddr = 50 ∧
    (false, 100, 50) ∈ ((MDMemoryAccess.mk false 100 50 none).append false 0 10).subAccesses ∧
    ¬(100 + 50 ≤ ((MDMemoryAccess.mk false 100 50 none).append false 0 10).getExtendedEndAddr) := by
  decide

/-! ### Projection lemmas for the state operations -/

@[simp] theorem setGroup_NextGroupID (s : LSUState) (k : Nat) (f : MemoryGroup → MemoryGroup) : (setGroup s k f).NextGroupID = s.NextGroupID := rfl

@[simp] theorem setGroup_CL (s : LSUState) (k : Nat) (f : MemoryGroup → MemoryGroup) : (setGroup s k f).CurrentLoadGroupID = s.CurrentLoadGroupID := rfl

@[simp] theorem setGroup_CS (s : LSUState) (k : Nat) (f : MemoryGroup → MemoryGroup) : (setGroup s k f).CurrentStoreGroupID = s.CurrentStoreGroupID := rfl

@[simp] theorem setGroup_CLB (s : LSUState) (k : Nat) (f : MemoryGroup → MemoryGroup) : (setGroup s k f).CurrentLoadBarrierGroupID = s.CurrentLoadBarrierGroupID := rfl

@[simp] theorem setGroup_CSB (s : LSUState) (k : Nat) (f : MemoryGroup → MemoryGroup) : (setGroup s k f).CurrentStoreBarrierGroupID = s.CurrentStoreBarrierGroupID := rfl

@[simp] theorem setGroup_UsedLQ (s : LSUState) (k : Nat) (f : MemoryGroup → MemoryGroup) : (setGroup s k f).UsedLQEntries = s.UsedLQEntries := rfl

@[simp] theorem setGroup_UsedSQ (s : LSUState) (k : Nat) (f : MemoryGroup → MemoryGroup) : (setGroup s k f).UsedSQEntries = s.UsedSQEntries := rfl

@[simp] theorem setGroup_LQSize (s : LSUState) (k : Nat) (f : MemoryGroup → MemoryGroup) : (setGroup s k f).LQSize = s.LQSize := rfl

@[simp] theorem setGroup_SQSize (s : LSUState) (k : Nat) (f : MemoryGroup → MemoryGroup) : (setGroup s k f).SQSize = s.SQSize := rfl

@[simp] theorem setGroup_NoAlias (s : LSUState) (k : Nat) (f : MemoryGroup → MemoryGroup) : (setGroup s k f).NoAlias = s.NoAlias := rfl

@[simp] theorem createMemoryGroup_NextGroupID (s : LSUState) : (createMemoryGroup s).NextGroupID = s.NextGroupID + 1 := rfl

@[simp] theorem createMemoryGroup_CL (s : LSUState) : (createMemoryGroup s).CurrentLoadGroupID = s.CurrentLoadGroupID := rfl

@[simp] theorem createMemoryGroup_CS (s : LSUState) : (createMemoryGroup s).CurrentStoreGroupID = s.CurrentStoreGroupID := rfl

@[simp] theorem createMemoryGroup_CLB (s : LSUState) : (createMemoryGroup s).CurrentLoadBarrierGroupID = s.CurrentLoadBarrierGroupID := rfl

@[simp] theorem createMemoryGroup_CSB (s : LSUState) : (createMemoryGroup s).CurrentStoreBarrierGroupID = s.CurrentStoreBarrierGroupID := rfl

@[simp] theorem createMemoryGroup_UsedLQ (s : LSUState) : (createMemoryGroup s).UsedLQEntries = s.UsedLQEntries := rfl

@[simp] theorem createMemoryGroup_UsedSQ (s : LSUState) : (createMemoryGroup s).UsedSQEntries = s.UsedSQEntries := rfl

@[simp] theorem eraseGroup_NextGroupID (s : LSUState) (k : Nat) : (eraseGroup s k).NextGroupID = s.NextGroupID := rfl

@[simp] theorem eraseGroup_CL (s : LSUState) (k : Nat) : (eraseGroup s k).CurrentLoadGroupID = s.CurrentLoadGroupID := rfl

@[simp] theorem eraseGroup_CS (s : LSUState) (k : Nat) : (eraseGroup s k).CurrentStoreGroupID = s.CurrentStoreGroupID := rfl

@[simp] theorem eraseGroup_CLB (s : LSUState) (k : Nat) : (eraseGroup s k).CurrentLoadBarrierGroupID = s.CurrentLoadBarrierGroupID := rfl

@[simp] theorem eraseGroup_CSB (s : LSUState) (k : Nat) : (eraseGroup s k).CurrentStoreBarrierGroupID = s.CurrentStoreBarrierGroupID := rfl

@[simp] theorem eraseGroup_UsedLQ (s : LSUState) (k : Nat) : (eraseGroup s k).UsedLQEntries = s.UsedLQEntries := rfl

@[simp] theorem eraseGroup_UsedSQ (s : LSUState) (k : Nat) : (eraseGroup s k).UsedSQEntries = s.UsedSQEntries := rfl

@[simp] theorem acquireLQSlot_UsedLQ (s : LSUState) : (acquireLQSlot s).UsedLQEntries = s.UsedLQEntries + 1 := rfl

@[simp] theorem acquireLQSlot_UsedSQ (s : LSUState) : (acquireLQSlot s).UsedSQEntries = s.UsedSQEntries := rfl

@[simp] theorem acquireLQSlot_NextGroupID (s : LSUState) : (acquireLQSlot s).NextGroupID = s.NextGroupID := rfl

@[simp] theorem acquireLQSlot_CL (s : LSUState) : (acquireLQSlot s).CurrentLoadGroupID = s.CurrentLoadGroupID := rfl

@[simp] theorem acquireLQSlot_CS (s : LSUState) : (acquireLQSlot s).CurrentStoreGroupID = s.CurrentStoreGroupID := rfl

@[simp] theorem acquireLQSlot_CLB (s : LSUState) : (acquireLQSlot s).CurrentLoadBarrierGroupID = s.CurrentLoadBarrierGroupID := rfl

@[simp] theorem acquireLQSlot_CSB (s : LSUState) : (acquireLQSlot s).CurrentStoreBarrierGroupID = s.CurrentStoreBarrierGroupID := rfl

@[simp] theorem acquireSQSlot_UsedLQ (s : LSUState) : (acquireSQSlot s).UsedLQEntries = s.UsedLQEntries := rfl

@[simp] theorem acquireSQSlot_UsedSQ (s : LSUState) : (acquireSQSlot s).UsedSQEntries = s.UsedSQEntries + 1 := rfl

@[simp] theorem acquireSQSlot_NextGroupID (s : LSUState) : (acquireSQSlot s).NextGroupID = s.NextGroupID := rfl

@[simp] theorem acquireSQSlot_CL (s : LSUState) : (acquireSQSlot s).CurrentLoadGroupID = s.CurrentLoadGroupID := rfl

@[simp] theorem acquireSQSlot_CS (s : LSUState) : (acquireSQSlot s).CurrentStoreGroupID = s.CurrentStoreGroupID := rfl

@[simp] theorem acquireSQSlot_CLB (s : LSUState) : (acquireSQSlot s).CurrentLoadBarrierGroupID = s.CurrentLoadBarrierGroupID := rfl

@[simp] theorem acquireSQSlot_CSB (s : LSUState) : (acquireSQSlot s).CurrentStoreBarrierGroupID = s.CurrentStoreBarrierGroupID := rfl

@[simp] theorem releaseLQSlot_UsedLQ (s : LSUState) : (releaseLQSlot s).UsedLQEntries = s.UsedLQEntries - 1 := rfl

@[simp] theorem releaseLQSlot_UsedSQ (s : LSUState) : (releaseLQSlot s).UsedSQEntries = s.UsedSQEntries := rfl

@[simp] theorem releaseSQSlot_UsedLQ (s : LSUState) : (releaseSQSlot s).UsedLQEntries = s.UsedLQEntries := rfl

@[simp] theorem releaseSQSlot_UsedSQ (s : LSUState) : (releaseSQSlot s).UsedSQEntries = s.UsedSQEntries - 1 := rfl

@[simp] theorem lookupGroup_acquireLQ (s : LSUState) (j : Nat) : lookupGroup (acquireLQSlot s) j = lookupGroup s j := rfl

@[simp] theorem lookupGroup_acquireSQ (s : LSUState) (j : Nat) : lookupGroup (acquireSQSlot s) j = lookupGroup s j := rfl

@[simp] theorem addMemAccessTo_NextGroupID (s : LSUState) (k : Nat) (mda : Option MDMemoryAccess) : (addMemAccessTo s k mda).NextGroupID = s.NextGroupID := by cases mda <;> rfl

@[simp] theorem addMemAccessTo_CL (s : LSUState) (k : Nat) (mda : Option MDMemoryAccess) : (addMemAccessTo s k mda).CurrentLoadGroupID = s.CurrentLoadGroupID := by cases mda <;> rfl

@[simp] theorem addMemAccessTo_CS (s : LSUState) (k : Nat) (mda : Option MDMemoryAccess) : (addMemAccessTo s k mda).CurrentStoreGroupID = s.CurrentStoreGroupID := by cases mda <;> rfl

@[simp] theorem addMemAccessTo_CLB (s : LSUState) (k : Nat) (mda : Option MDMemoryAccess) : (addMemAccessTo s k mda).CurrentLoadBarrierGroupID = s.CurrentLoadBarrierGroupID := by cases mda <;> rfl

@[simp] theorem addMemAccessTo_CSB (s : LSUState) (k : Nat) (mda : Option MDMemoryAccess) : (addMemAccessTo s k mda).CurrentStoreBarrierGroupID = s.CurrentStoreBarrierGroupID := by cases mda <;> rfl

@[simp] theorem addMemAccessTo_UsedLQ (s : LSUState) (k : Nat) (mda : Option MDMemoryAccess) : (addMemAccessTo s k mda).UsedLQEntries = s.UsedLQEntries := by cases mda <;> rfl

@[simp] theorem addMemAccessTo_UsedSQ (s : LSUState) (k : Nat) (mda : Option MDMemoryAccess) : (addMemAccessTo s k mda).UsedSQEntries = s.UsedSQEntries := by cases mda <;> rfl

theorem lookupGroup_addMemAccessTo (s : LSUState) (k : Nat) (mda : Option MDMemoryAccess) (j : Nat) :
    lookupGroup (addMemAccessTo s k mda) j =
      if j = k then (lookupGroup s j).map (fun g =>
        match mda with
        | some m => { g with MemAccesses := g.MemAccesses ++ [m] }
        | none => g)
      else lookupGroup s j := by
  cases mda with
  | none =>
    simp only [addMemAccessTo, Option.map_id']
    split <;> simp
  | some m => simp [addMemAccessTo, lookupGroup_setGroup]

@[simp] theorem shouldCreate_acquireLQ (s : LSUState) (i : Instr) : shouldCreateANewGroup (acquireLQSlot s) i = shouldCreateANewGroup s i := rfl

@[simp] theorem shouldCreate_acquireSQ (s : LSUState) (i : Instr) : shouldCreateANewGroup (acquireSQSlot s) i = shouldCreateANewGroup s i := rfl

/-! ### Characterization of the dispatch results -/

theorem dispatchStore_snd (s : LSUState) (i : Instr) : (dispatchStore s i).2 = s.NextGroupID := rfl

theorem dispatchLoad_snd (s : LSUState) (i : Instr) :
    (dispatchLoad s i).2 = if shouldCreateANewGroup s i then s.NextGroupID else s.CurrentLoadGroupID := by
  by_cases h : shouldCreateANewGroup s i <;> simp [dispatchLoad, h]

theorem dispatchStore_NextGroupID (s : LSUState) (i : Instr) :
    (dispatchStore s i).1.NextGroupID = s.NextGroupID + 1 := by
  simp [dispatchStore, addSuccessor, addInstructionTo, apply_ite LSUState.NextGroupID]

theorem dispatchLoad_NextGroupID (s : LSUState) (i : Instr) :
    (dispatchLoad s i).1.NextGroupID =
      if shouldCreateANewGroup s i then s.NextGroupID + 1 else s.NextGroupID := by
  by_cases h : shouldCreateANewGroup s i <;>
    simp [dispatchLoad, h, addSuccessor, addInstructionTo, apply_ite LSUState.NextGroupID]

theorem dispatchStore_CS (s : LSUState) (i : Instr) :
    (dispatchStore s i).1.CurrentStoreGroupID = s.NextGroupID := by
  simp [dispatchStore, addSuccessor, addInstructionTo, apply_ite LSUState.CurrentStoreGroupID]

theorem dispatchStore_CL (s : LSUState) (i : Instr) :
    (dispatchStore s i).1.CurrentLoadGroupID =
      if i.Desc.MayLoad then s.NextGroupID else s.CurrentLoadGroupID := by
  by_cases h : i.Desc.MayLoad <;> by_cases h2 : i.IsALoadBarrier <;> by_cases h3 : i.IsAStoreBarrier <;>
    simp [dispatchStore, h, h2, h3, addSuccessor, addInstructionTo, apply_ite LSUState.CurrentLoadGroupID]

theorem dispatchStore_CLB (s : LSUState) (i : Instr) :
    (dispatchStore s i).1.CurrentLoadBarrierGroupID =
      if i.Desc.MayLoad then
        (if i.IsALoadBarrier then s.NextGroupID else s.CurrentLoadBarrierGroupID)
      else s.CurrentLoadBarrierGroupID := by
  by_cases h : i.Desc.MayLoad <;> by_cases h2 : i.IsALoadBarrier <;> by_cases h3 : i.IsAStoreBarrier <;>
    simp [dispatchStore, h, h2, h3, addSuccessor, addInstructionTo, apply_ite LSUState.CurrentLoadBarrierGroupID]

theorem dispatchStore_CSB (s : LSUState) (i : Instr) :
    (dispatchStore s i).1.CurrentStoreBarrierGroupID =
      if i.IsAStoreBarrier then s.NextGroupID else s.CurrentStoreBarrierGroupID := by
  by_cases h : i.Desc.MayLoad <;> by_cases h2 : i.IsALoadBarrier <;> by_cases h3 : i.IsAStoreBarrier <;>
    simp [dispatchStore, h, h2, h3, addSuccessor, addInstructionTo, apply_ite LSUState.CurrentStoreBarrierGroupID]

theorem dispatchLoad_CL (s : LSUState) (i : Instr) :
    (dispatchLoad s i).1.CurrentLoadGroupID =
      if shouldCreateANewGroup s i then s.NextGroupID else s.CurrentLoadGroupID := by
  by_cases h : shouldCreateANewGroup s i <;> by_cases h2 : i.IsALoadBarrier <;>
    simp [dispatchLoad, h, h2, addSuccessor, addInstructionTo, apply_ite LSUState.CurrentLoadGroupID]

theorem dispatchLoad_CLB (s : LSUState) (i : Instr) :
    (dispatchLoad s i).1.CurrentLoadBarrierGroupID =
      if shouldCreateANewGroup s i then
        (if i.IsALoadBarrier then s.NextGroupID else s.CurrentLoadBarrierGroupID)
      else s.CurrentLoadBarrierGroupID := by
  by_cases h : shouldCreateANewGroup s i <;> by_cases h2 : i.IsALoadBarrier <;>
    simp [dispatchLoad, h, h2, addSuccessor, addInstructionTo, apply_ite LSUState.CurrentLoadBarrierGroupID]

theorem dispatchLoad_CS (s : LSUState) (i : Instr) :
    (dispatchLoad s i).1.CurrentStoreGroupID = s.CurrentStoreGroupID := by
  by_cases h : shouldCreateANewGroup s i <;> by_cases h2 : i.IsALoadBarrier <;>
    simp [dispatchLoad, h, h2, addSuccessor, addInstructionTo, apply_ite LSUState.CurrentStoreGroupID]

theorem dispatchLoad_CSB (s : LSUState) (i : Instr) :
    (dispatchLoad s i).1.CurrentStoreBarrierGroupID = s.CurrentStoreBarrierGroupID := by
  by_cases h : shouldCreateANewGroup s i <;> by_cases h2 : i.IsALoadBarrier <;>
    simp [dispatchLoad, h, h2, addSuccessor, addInstructionTo, apply_ite LSUState.CurrentStoreBarrierGroupID]

theorem dispatch_snd (s : LSUState) (i : Instr) :
    (dispatch s i).2 =
      if isStore i.Desc i.MDA then s.NextGroupID
      else if shouldCreateANewGroup s i then s.NextGroupID else s.CurrentLoadGroupID := by
  by_cases hS : isStore i.Desc i.MDA <;> by_cases hL : i.Desc.MayLoad <;>
    simp [dispatch, hS, hL, dispatchStore_snd, dispatchLoad_snd]

theorem dispatch_NextGroupID (s : LSUState) (i : Instr) :
    (dispatch s i).1.NextGroupID =
      if isStore i.Desc i.MDA then s.NextGroupID + 1
      else if shouldCreateANewGroup s i then s.NextGroupID + 1 else s.NextGroupID := by
  by_cases hS : isStore i.Desc i.MDA <;> by_cases hL : i.Desc.MayLoad <;>
    simp [dispatch, hS, hL, dispatchStore_NextGroupID, dispatchLoad_NextGroupID]

theorem dispatch_CL (s : LSUState) (i : Instr) :
    (dispatch s i).1.CurrentLoadGroupID =
      if isStore i.Desc i.MDA then
        (if i.Desc.MayLoad then s.NextGroupID else s.CurrentLoadGroupID)
      else if shouldCreateANewGroup s i then s.NextGroupID else s.CurrentLoadGroupID := by
  by_cases hS : isStore i.Desc i.MDA <;> by_cases hL : i.Desc.MayLoad <;>
    simp [dispatch, hS, hL, dispatchStore_CL, dispatchLoad_CL]

theorem dispatch_CS (s : LSUState) (i : Instr) :
    (dispatch s i).1.CurrentStoreGroupID =
      if isStore i.Desc i.MDA then s.NextGroupID else s.CurrentStoreGroupID := by
  by_cases hS : isStore i.Desc i.MDA <;> by_cases hL : i.Desc.MayLoad <;>
    simp [dispatch, hS, hL, dispatchStore_CS, dispatchLoad_CS]

theorem dispatch_CLB (s : LSUState) (i : Instr) :
    (dispatch s i).1.CurrentLoadBarrierGroupID =
      if isStore i.Desc i.MDA then
        (if i.Desc.MayLoad then
          (if i.IsALoadBarrier then s.NextGroupID else s.CurrentLoadBarrierGroupID)
         else s.CurrentLoadBarrierGroupID)
      else if shouldCreateANewGroup s i then
        (if i.IsALoadBarrier then s.NextGroupID else s.CurrentLoadBarrierGroupID)
      else s.CurrentLoadBarrierGroupID := by
  by_cases hS : isStore i.Desc i.MDA <;> by_cases hL : i.Desc.MayLoad <;>
    simp [dispatch, hS, hL, dispatchStore_CLB, dispatchLoad_CLB]

theorem dispatch_CSB (s : LSUState) (i : Instr) :
    (dispatch s i).1.CurrentStoreBarrierGroupID =
      if isStore i.Desc i.MDA then
        (if i.IsAStoreBarrier then s.NextGroupID else s.CurrentStoreBarrierGroupID)
      else s.CurrentStoreBarrierGroupID := by
  by_cases hS : isStore i.Desc i.MDA <;> by_cases hL : i.Desc.MayLoad <;>
    simp [dispatch, hS, hL, dispatchStore_CSB, dispatchLoad_CSB]

@[simp] theorem lookupGroup_update_CL (s : LSUState) (x j : Nat) : lookupGroup { s with CurrentLoadGroupID := x } j = lookupGroup s j := rfl

@[simp] theorem lookupGroup_update_CS (s : LSUState) (x j : Nat) : lookupGroup { s with CurrentStoreGroupID := x } j = lookupGroup s j := rfl

@[simp] theorem lookupGroup_update_CLB (s : LSUState) (x j : Nat) : lookupGroup { s with CurrentLoadBarrierGroupID := x } j = lookupGroup s j := rfl

@[simp] theorem lookupGroup_update_CSB (s : LSUState) (x j : Nat) : lookupGroup { s with CurrentStoreBarrierGroupID := x } j = lookupGroup s j := rfl

@[simp] theorem lookupGID_cons (a : Nat) (g : MemoryGroup) (t : List (Nat × MemoryGroup)) (j : Nat) :
    lookupGID ((a, g) :: t) j = if a = j then some g else lookupGID t j := rfl

@[simp] theorem lookupGroup_eq (s : LSUState) (gid : Nat) : lookupGroup s gid = lookupGID s.Groups gid := rfl

@[simp] theorem setGroup_Groups (s : LSUState) (k : Nat) (f : MemoryGroup → MemoryGroup) :
    (setGroup s k f).Groups = updateGID s.Groups k f := rfl

@[simp] theorem createMemoryGroup_Groups (s : LSUState) :
    (createMemoryGroup s).Groups = (s.NextGroupID, emptyGroup) :: s.Groups := rfl

@[simp] theorem eraseGroup_Groups (s : LSUState) (k : Nat) :
    (eraseGroup s k).Groups = removeGID s.Groups k := rfl

@[simp] theorem acquireLQSlot_Groups (s : LSUState) : (acquireLQSlot s).Groups = s.Groups := rfl

@[simp] theorem acquireSQSlot_Groups (s : LSUState) : (acquireSQSlot s).Groups = s.Groups := rfl

@[simp] theorem releaseLQSlot_Groups (s : LSUState) : (releaseLQSlot s).Groups = s.Groups := rfl

@[simp] theorem releaseSQSlot_Groups (s : LSUState) : (releaseSQSlot s).Groups = s.Groups := rfl

theorem lookupGID_addMemAccessTo (s : LSUState) (k : Nat) (mda : Option MDMemoryAccess) (j : Nat) :
    lookupGID (addMemAccessTo s k mda).Groups j =
      if j = k then (lookupGID s.Groups j).map (fun g =>
        match mda with
        | some m => { g with MemAccesses := g.MemAccesses ++ [m] }
        | none => g)
      else lookupGID s.Groups j := by
  cases mda with
  | none =>
    simp only [addMemAccessTo, Option.map_id']
    split <;> simp
  | some m => simp [addMemAccessTo, lookupGID_update]

theorem dispatchStore_lookup_isSome (s : LSUState) (i : Instr) (k : Nat) :
    (lookupGroup (dispatchStore s i).1 k).isSome = true ↔
      (s.NextGroupID = k ∨ (lookupGroup s k).isSome = true) := by
  simp only [dispatchStore]
  split_ifs <;>
    simp [addSuccessor, addInstructionTo, lookupGID_update, lookupGID_addMemAccessTo,
      apply_ite Option.isSome] <;>
    split_ifs <;> simp_all

theorem dispatchLoad_lookup_isSome (s : LSUState) (i : Instr) (k : Nat) :
    (lookupGroup (dispatchLoad s i).1 k).isSome = true ↔
      ((shouldCreateANewGroup s i = true ∧ s.NextGroupID = k) ∨ (lookupGroup s k).isSome = true) := by
  by_cases h : shouldCreateANewGroup s i
  · simp only [dispatchLoad, h, if_true]
    split_ifs <;>
      simp [h, addSuccessor, addInstructionTo, lookupGID_update, lookupGID_addMemAccessTo,
        apply_ite Option.isSome] <;>
      split_ifs <;> simp_all
  · simp only [dispatchLoad, h]
    simp only [Bool.not_eq_true] at h
    simp [h, addSuccessor, addInstructionTo, lookupGID_update, lookupGID_addMemAccessTo,
      apply_ite Option.isSome]

theorem dispatch_lookup_isSome (s : LSUState) (i : Instr) (k : Nat) :
    (lookupGroup (dispatch s i).1 k).isSome = true ↔
      (((isStore i.Desc i.MDA = true ∨ shouldCreateANewGroup s i = true) ∧ s.NextGroupID = k) ∨
        (lookupGroup s k).isSome = true) := by
  by_cases hS : isStore i.Desc i.MDA <;> by_cases hL : i.Desc.MayLoad <;>
    simp [dispatch, hS, hL] <;>
    first
      | simpa using dispatchStore_lookup_isSome (acquireSQSlot (acquireLQSlot s)) i k
      | simpa using dispatchStore_lookup_isSome (acquireSQSlot s) i k
      | simpa using dispatchLoad_lookup_isSome (acquireLQSlot s) i k
      | simpa using dispatchLoad_lookup_isSome s i k

theorem shouldCreateANewGroup_iff (s : LSUState) (i : Instr) :
    shouldCreateANewGroup s i = true ↔
      (i.IsALoadBarrier = true ∨
       max s.CurrentLoadGroupID s.CurrentLoadBarrierGroupID = 0 ∨
       s.CurrentLoadBarrierGroupID = max s.CurrentLoadGroupID s.CurrentLoadBarrierGroupID ∨
       max s.CurrentLoadGroupID s.CurrentLoadBarrierGroupID ≤ s.CurrentStoreGroupID ∨
       (getGroup s (max s.CurrentLoadGroupID s.CurrentLoadBarrierGroupID)).isExecuting = true) := by
  simp [shouldCreateANewGroup]
  tauto

/-- C3: a dispatched pure load allocates a new group exactly when the
instruction is a load barrier, or there is no load dominator, or the
dominator is the current load barrier, or the dominator is not younger than
the current store group, or the dominator group is executing; otherwise the
instruction and its memory access are added to the current load group and
its ID is returned. -/
theorem claim3_pure_load_grouping (s : LSUState) (i : Instr)
    (hL : i.Desc.MayLoad = true) (hS : isStore i.Desc i.MDA = false) :
    ((dispatch s i).1.NextGroupID = s.NextGroupID + 1 ↔
      (i.IsALoadBarrier = true ∨
       max s.CurrentLoadGroupID s.CurrentLoadBarrierGroupID = 0 ∨
       s.CurrentLoadBarrierGroupID = max s.CurrentLoadGroupID s.CurrentLoadBarrierGroupID ∨
       max s.CurrentLoadGroupID s.CurrentLoadBarrierGroupID ≤ s.CurrentStoreGroupID ∨
       (getGroup s (max s.CurrentLoadGroupID s.CurrentLoadBarrierGroupID)).isExecuting = true)) ∧
    (¬(i.IsALoadBarrier = true ∨
       max s.CurrentLoadGroupID s.CurrentLoadBarrierGroupID = 0 ∨
       s.CurrentLoadBarrierGroupID = max s.CurrentLoadGroupID s.CurrentLoadBarrierGroupID ∨
       max s.CurrentLoadGroupID s.CurrentLoadBarrierGroupID ≤ s.CurrentStoreGroupID ∨
       (getGroup s (max s.CurrentLoadGroupID s.CurrentLoadBarrierGroupID)).isExecuting = true) →
      (dispatch s i).2 = s.CurrentLoadGroupID ∧
      ∀ g, lookupGroup s s.CurrentLoadGroupID = some g →
        lookupGroup (dispatch s i).1 s.CurrentLoadGroupID =
          some { g with NumInstructions := g.NumInstructions + 1,
                        MemAccesses := g.MemAccesses ++ i.MDA.toList }) := by
  have hiff := shouldCreateANewGroup_iff s i
  constructor
  · rw [dispatch_NextGroupID, if_neg (by simp [hS]), ← hiff]
    by_cases h : shouldCreateANewGroup s i <;> simp [h]
  · intro hnot
    have h : shouldCreateANewGroup s i = false := by
      cases hsc : shouldCreateANewGroup s i with
      | false => rfl
      | true => exact absurd (hiff.1 hsc) hnot
    refine ⟨by rw [dispatch_snd, if_neg (by simp [hS]), if_neg (by simp [h])], ?_⟩
    intro g hg
    have hd : dispatch s i = dispatchLoad (acquireLQSlot s) i := by simp [dispatch, hS, hL]
    rw [hd]
    have h' : shouldCreateANewGroup (acquireLQSlot s) i = false := h
    simp only [dispatchLoad, h', Bool.false_eq_true, if_false]
    have hg' : lookupGID s.Groups s.CurrentLoadGroupID = some g := hg
    cases hmda : i.MDA with
    | none =>
      simp [addInstructionTo, addMemAccessTo, lookupGID_update, hg']
    | some m =>
      simp [addInstructionTo, addMemAccessTo, lookupGID_update, hg']

/-- C3 witness: after one dispatched load `L@0/8`, the load `L@8/8` does not
create a new group and is merged into the current load group. -/
theorem claim3_witness :
    (dispatch (dispatch (initLSU 4 4 false) ⟨⟨true, false⟩, false, false, some ⟨false, 0, 8, none⟩, 0⟩).1
        ⟨⟨true, false⟩, false, false, some ⟨false, 8, 8, none⟩, 0⟩).2 =
      (dispatch (initLSU 4 4 false) ⟨⟨true, false⟩, false, false, some ⟨false, 0, 8, none⟩, 0⟩).1.CurrentLoadGroupID :=
  ((claim3_pure_load_grouping _ _ (by decide) (by decide)).2 (by decide)).1

theorem numInst_addSuccessor (s : LSUState) (a b : Nat) (d : Bool) (j : Nat) :
    (lookupGID (addSuccessor s a b d).Groups j).map MemoryGroup.NumInstructions =
      (lookupGID s.Groups j).map MemoryGroup.NumInstructions := by
  simp only [addSuccessor, setGroup_Groups, lookupGID_update]
  split_ifs <;> cases lookupGID s.Groups j <;> simp

set_option maxHeartbeats 1000000 in
theorem dispatchStore_numInst (s : LSUState) (i : Instr) :
    (lookupGroup (dispatchStore s i).1 s.NextGroupID).map MemoryGroup.NumInstructions = some 1 := by
  cases hmda : i.MDA <;>
    (simp only [dispatchStore, hmda, addMemAccessTo, addInstructionTo, lookupGroup_eq]
     split_ifs <;>
       simp only [numInst_addSuccessor, setGroup_Groups, createMemoryGroup_Groups,
         lookupGID_update, lookupGID_cons, eq_self_iff_true, if_true, Option.map_some',
         emptyGroup, Nat.zero_add])

set_option maxHeartbeats 1000000 in
theorem dispatchLoad_numInst (s : LSUState) (i : Instr) (h : shouldCreateANewGroup s i = true) :
    (lookupGroup (dispatchLoad s i).1 s.NextGroupID).map MemoryGroup.NumInstructions = some 1 := by
  cases hmda : i.MDA <;>
    (simp only [dispatchLoad, h, if_true, hmda, addMemAccessTo, addInstructionTo, lookupGroup_eq]
     split_ifs <;>
       simp only [numInst_addSuccessor, setGroup_Groups, createMemoryGroup_Groups,
         lookupGID_update, lookupGID_cons, eq_self_iff_true, if_true, Option.map_some',
         emptyGroup, Nat.zero_add])

theorem dispatch_new_numInstructions (s : LSUState) (i : Instr)
    (hnew : isStore i.Desc i.MDA = true ∨ shouldCreateANewGroup s i = true) :
    (lookupGroup (dispatch s i).1 s.NextGroupID).map MemoryGroup.NumInstructions = some 1 := by
  by_cases hS : isStore i.Desc i.MDA = true
  · by_cases hL : i.Desc.MayLoad = true
    · simp only [dispatch, hS, hL, if_true]
      simpa using dispatchStore_numInst (acquireSQSlot (acquireLQSlot s)) i
    · simp only [dispatch, hS, if_true]
      have hL' : i.Desc.MayLoad = false := by simpa using hL
      simp only [hL', Bool.false_eq_true, if_false]
      simpa using dispatchStore_numInst (acquireSQSlot s) i
  · have hS' : isStore i.Desc i.MDA = false := by simpa using hS
    have hC : shouldCreateANewGroup s i = true := hnew.resolve_left hS
    by_cases hL : i.Desc.MayLoad = true
    · simp only [dispatch, hS', Bool.false_eq_true, if_false, hL, if_true]
      simpa using dispatchLoad_numInst (acquireLQSlot s) i hC
    · have hL' : i.Desc.MayLoad = false := by simpa using hL
      simp only [dispatch, hS', Bool.false_eq_true, if_false, hL']
      simpa using dispatchLoad_numInst s i hC

theorem pure_load_mayLoad (i : Instr) (hm : isMemOp i = true)
    (hs : isStore i.Desc i.MDA = false) : i.Desc.MayLoad = true := by
  have hms : i.Desc.MayStore = false := by
    cases hms : i.Desc.MayStore
    · rfl
    · exact absurd hs (by simp [isStore, hms])
  simpa [isMemOp, hms] using hm

/-- C4: a dispatched store always gets a brand-new group (the freshly
allocated ID) holding exactly one instruction; and if two consecutive
dispatches return the same group ID then both instructions are pure loads
(with no instruction, in particular no store, between them). -/
theorem claim4_store_new_singleton_and_same_gid :
    (∀ s i, isStore i.Desc i.MDA = true →
      (dispatch s i).2 = s.NextGroupID ∧
      (dispatch s i).1.NextGroupID = s.NextGroupID + 1 ∧
      (lookupGroup (dispatch s i).1 s.NextGroupID).map MemoryGroup.NumInstructions = some 1) ∧
    (∀ s i1 i2, isMemOp i1 = true → isMemOp i2 = true →
      s.CurrentLoadGroupID < s.NextGroupID →
      s.CurrentLoadBarrierGroupID < s.NextGroupID →
      (dispatch s i1).2 = (dispatch (dispatch s i1).1 i2).2 →
      (i1.Desc.MayLoad = true ∧ isStore i1.Desc i1.MDA = false ∧
       i2.Desc.MayLoad = true ∧ isStore i2.Desc i2.MDA = false)) := by
  constructor
  · intro s i hS
    exact ⟨by rw [dispatch_snd, if_pos hS], by rw [dispatch_NextGroupID, if_pos hS],
      dispatch_new_numInstructions s i (Or.inl hS)⟩
  · intro s i1 i2 hm1 hm2 hb1 hb2 heq
    have hfst : ∀ hg2 : (dispatch (dispatch s i1).1 i2).2 = (dispatch s i1).1.NextGroupID, False := by
      intro hg2
      have hlt : (dispatch s i1).2 < (dispatch s i1).1.NextGroupID := by
        rw [dispatch_snd, dispatch_NextGroupID]
        by_cases hS1 : isStore i1.Desc i1.MDA = true
        · simp [hS1]
        · have hS1' : isStore i1.Desc i1.MDA = false := by simpa using hS1
          by_cases hC1 : shouldCreateANewGroup s i1 = true
          · simp [hS1', hC1]
          · have hC1' : shouldCreateANewGroup s i1 = false := by simpa using hC1
            simp [hS1', hC1']
            exact hb1
      rw [heq, hg2] at hlt
      exact lt_irrefl _ hlt
    by_cases hS2 : isStore i2.Desc i2.MDA = true
    · exact absurd (by rw [dispatch_snd, if_pos hS2]) (fun h => hfst h)
    · have hS2' : isStore i2.Desc i2.MDA = false := by simpa using hS2
      by_cases hC2 : shouldCreateANewGroup (dispatch s i1).1 i2 = true
      · exact absurd (by rw [dispatch_snd, if_neg (by simp [hS2']), if_pos hC2]) (fun h => hfst h)
      · have hC2' : shouldCreateANewGroup (dispatch s i1).1 i2 = false := by simpa using hC2
        have hg2 : (dispatch (dispatch s i1).1 i2).2 = (dispatch s i1).1.CurrentLoadGroupID := by
          rw [dispatch_snd, if_neg (by simp [hS2']), if_neg (by simp [hC2'])]
        by_cases hS1 : isStore i1.Desc i1.MDA = true
        · exfalso
          by_cases hL1 : i1.Desc.MayLoad = true
          · apply hC2
            apply (shouldCreateANewGroup_iff _ i2).2
            refine Or.inr (Or.inr (Or.inr (Or.inl ?_)))
            have hCL' : (dispatch s i1).1.CurrentLoadGroupID = s.NextGroupID := by
              rw [dispatch_CL, if_pos hS1, if_pos hL1]
            have hCS' : (dispatch s i1).1.CurrentStoreGroupID = s.NextGroupID := by
              rw [dispatch_CS, if_pos hS1]
            have hCLB' : (dispatch s i1).1.CurrentLoadBarrierGroupID ≤ s.NextGroupID := by
              rw [dispatch_CLB, if_pos hS1, if_pos hL1]
              by_cases hLB1 : i1.IsALoadBarrier = true
              · simp [hLB1]
              · have hLB1' : i1.IsALoadBarrier = false := by simpa using hLB1
                simp [hLB1']
                exact le_of_lt hb2
            rw [hCL', hCS']
            exact max_le (le_refl _) hCLB'
          · have hL1' : i1.Desc.MayLoad = false := by simpa using hL1
            have hg1 : (dispatch s i1).2 = s.NextGroupID := by rw [dispatch_snd, if_pos hS1]
            have hCL' : (dispatch s i1).1.CurrentLoadGroupID = s.CurrentLoadGroupID := by
              rw [dispatch_CL, if_pos hS1, hL1']
              simp
            rw [hg1, hg2, hCL'] at heq
            omega
        · have hS1' : isStore i1.Desc i1.MDA = false := by simpa using hS1
          exact ⟨pure_load_mayLoad i1 hm1 hS1', hS1', pure_load_mayLoad i2 hm2 hS2', hS2'⟩

/-- C4 witness: on the fresh LSU the store `S@0/8` gets the fresh group ID 1;
and the consecutive pair `L@0/8, L@8/8` returns the same group ID, with both
instructions pure loads. -/
theorem claim4_witness :
    (dispatch (initLSU 4 4 false) ⟨⟨false, true⟩, false, false, some ⟨true, 0, 8, none⟩, 0⟩).2 =
      (initLSU 4 4 false).NextGroupID ∧
    ((⟨⟨true, false⟩, false, false, some ⟨false, 0, 8, none⟩, 0⟩ : Instr).Desc.MayLoad = true ∧
     isStore (⟨⟨true, false⟩, false, false, some ⟨false, 0, 8, none⟩, 0⟩ : Instr).Desc
       (⟨⟨true, false⟩, false, false, some ⟨false, 0, 8, none⟩, 0⟩ : Instr).MDA = false ∧
     (⟨⟨true, false⟩, false, false, some ⟨false, 8, 8, none⟩, 0⟩ : Instr).Desc.MayLoad = true ∧
     isStore (⟨⟨true, false⟩, false, false, some ⟨false, 8, 8, none⟩, 0⟩ : Instr).Desc
       (⟨⟨true, false⟩, false, false, some ⟨false, 8, 8, none⟩, 0⟩ : Instr).MDA = false) :=
  ⟨(claim4_store_new_singleton_and_same_gid.1 _ _ (by decide)).1,
   claim4_store_new_singleton_and_same_gid.2 (initLSU 4 4 false) _ _
     (by decide) (by decide) (by decide) (by decide) (by decide)⟩

theorem lookupGID_new_group_path (s : LSUState) (k : Nat) (mda : Option MDMemoryAccess)
    (hk : k ≠ s.NextGroupID) :
    lookupGID (addMemAccessTo (addInstructionTo (createMemoryGroup s) s.NextGroupID)
        s.NextGroupID mda).Groups k = lookupGID s.Groups k := by
  rw [lookupGID_addMemAccessTo, if_neg hk]
  simp only [addInstructionTo, setGroup_Groups, lookupGID_update, if_neg hk,
    createMemoryGroup_Groups, lookupGID_cons, if_neg (Ne.symm hk)]

theorem noAlias_new_group_path (s : LSUState) (k : Nat) (gS : MemoryGroup) (m : MDMemoryAccess)
    (mda : Option MDMemoryAccess) (hk : k ≠ s.NextGroupID)
    (hlk : lookupGID s.Groups k = some gS) :
    noAlias (addMemAccessTo (addInstructionTo (createMemoryGroup s) s.NextGroupID)
        s.NextGroupID mda) k (some m) = !(gS.isMemAccessAlias m) := by
  simp only [noAlias, getGroup, lookupGroup_eq, lookupGID_new_group_path s k mda hk, hlk,
    Option.getD_some]

theorem claim1_core (s : LSUState) (i : Instr) (gS : MemoryGroup) (m : MDMemoryAccess)
    (hLB : i.IsALoadBarrier = false) (hm : i.MDA = some m)
    (hCS : s.CurrentStoreGroupID ≠ 0)
    (hCS_ne_n : s.CurrentStoreGroupID ≠ s.NextGroupID)
    (hCLB : s.CurrentLoadBarrierGroupID ≠ s.CurrentStoreGroupID)
    (hlive : lookupGID s.Groups s.CurrentStoreGroupID = some gS)
    (hnew : shouldCreateANewGroup s i = true) :
    lookupGroup (dispatchLoad s i).1 s.CurrentStoreGroupID =
      some (if gS.isMemAccessAlias m = true
            then { gS with Succs := gS.Succs ++ [(s.NextGroupID, true)] }
            else gS) := by
  simp only [dispatchLoad, hnew, if_true, hLB, Bool.false_eq_true, if_false, hm]
  simp only [noAlias_new_group_path s s.CurrentStoreGroupID gS m (some m) hCS_ne_n hlive]
  by_cases halias : gS.isMemAccessAlias m = true
  · by_cases hclb0 : s.CurrentLoadBarrierGroupID = 0
    · simp [halias, hCS, hclb0, addSuccessor, lookupGID_update, hCS_ne_n, Ne.symm hCLB,
        lookupGID_new_group_path s s.CurrentStoreGroupID (some m) hCS_ne_n, hlive]
    · simp [halias, hCS, hclb0, addSuccessor, lookupGID_update, hCS_ne_n, Ne.symm hCLB,
        lookupGID_new_group_path s s.CurrentStoreGroupID (some m) hCS_ne_n, hlive]
  · have halias' : gS.isMemAccessAlias m = false := by simpa using halias
    by_cases hclb0 : s.CurrentLoadBarrierGroupID = 0
    · simp [halias', hCS, hclb0, addSuccessor, lookupGID_update, hCS_ne_n, Ne.symm hCLB,
        lookupGID_new_group_path s s.CurrentStoreGroupID (some m) hCS_ne_n, hlive]
    · simp [halias', hCS, hclb0, addSuccessor, lookupGID_update, hCS_ne_n, Ne.symm hCLB,
        lookupGID_new_group_path s s.CurrentStoreGroupID (some m) hCS_ne_n, hlive]

/-- C1 (amended): when a pure non-barrier load with metadata `m` is dispatched
into a fresh group while a store group is current, the store group's
successor list gains the edge `(new group, is_data_dep = true)` iff the load
aliases the store group; when the ranges are disjoint no edge at all is added
(the store group's entry is left unchanged). -/
theorem claim1_amended (s : LSUState) (i : Instr) (gS : MemoryGroup) (m : MDMemoryAccess)
    (hL : i.Desc.MayLoad = true) (hS : isStore i.Desc i.MDA = false)
    (hLB : i.IsALoadBarrier = false) (hm : i.MDA = some m)
    (hCS : s.CurrentStoreGroupID ≠ 0)
    (hlt : s.CurrentStoreGroupID < s.NextGroupID)
    (hCLB : s.CurrentLoadBarrierGroupID ≠ s.CurrentStoreGroupID)
    (hlive : lookupGroup s s.CurrentStoreGroupID = some gS)
    (hnew : shouldCreateANewGroup s i = true) :
    (dispatch s i).2 = s.NextGroupID ∧
    lookupGroup (dispatch s i).1 s.CurrentStoreGroupID =
      some (if gS.isMemAccessAlias m = true
            then { gS with Succs := gS.Succs ++ [(s.NextGroupID, true)] }
            else gS) := by
  have hd : dispatch s i = dispatchLoad (acquireLQSlot s) i := by simp [dispatch, hS, hL]
  refine ⟨by rw [dispatch_snd, if_neg (by simp [hS]), if_pos hnew], ?_⟩
  rw [hd]
  have := claim1_core (acquireLQSlot s) i gS m hLB hm hCS (Nat.ne_of_lt hlt) hCLB hlive hnew
  simpa using this

/-- C1 (counterexample to the claim as stated): in the dispatch sequence
`L@0/8, L@8/8, S@32/4, L@64/8` the store's group is 2 and the final load's
group is 3; the byte ranges are disjoint and the code adds no edge at all, so
group 2 has an empty successor list and group 3 has no predecessors — there
is no edge `G2 -> G3` carrying `is_data_dep = false`, and `G2` is not a
predecessor of `G3`. -/
theorem claim1_counterexample :
    (dispatch (dispatchAll (initLSU 4 4 false)
        [⟨⟨true, false⟩, false, false, some ⟨false, 0, 8, none⟩, 0⟩,
         ⟨⟨true, false⟩, false, false, some ⟨false, 8, 8, none⟩, 0⟩])
        ⟨⟨false, true⟩, false, false, some ⟨true, 32, 4, none⟩, 0⟩).2 = 2 ∧
    (dispatch (dispatchAll (initLSU 4 4 false)
        [⟨⟨true, false⟩, false, false, some ⟨false, 0, 8, none⟩, 0⟩,
         ⟨⟨true, false⟩, false, false, some ⟨false, 8, 8, none⟩, 0⟩,
         ⟨⟨false, true⟩, false, false, some ⟨true, 32, 4, none⟩, 0⟩])
        ⟨⟨true, false⟩, false, false, some ⟨false, 64, 8, none⟩, 0⟩).2 = 3 ∧
    (getGroup (dispatchAll (initLSU 4 4 false)
        [⟨⟨true, false⟩, false, false, some ⟨false, 0, 8, none⟩, 0⟩,
         ⟨⟨true, false⟩, false, false, some ⟨false, 8, 8, none⟩, 0⟩,
         ⟨⟨false, true⟩, false, false, some ⟨true, 32, 4, none⟩, 0⟩,
         ⟨⟨true, false⟩, false, false, some ⟨false, 64, 8, none⟩, 0⟩]) 2).Succs = [] ∧
    (getGroup (dispatchAll (initLSU 4 4 false)
        [⟨⟨true, false⟩, false, false, some ⟨false, 0, 8, none⟩, 0⟩,
         ⟨⟨true, false⟩, false, false, some ⟨false, 8, 8, none⟩, 0⟩,
         ⟨⟨false, true⟩, false, false, some ⟨true, 32, 4, none⟩, 0⟩,
         ⟨⟨true, false⟩, false, false, some ⟨false, 64, 8, none⟩, 0⟩]) 3).NumPredecessors = 0 := by
  decide

/-- C1 witness: after the store `S@0/8` (group 1), a later overlapping load
`L@4/8` gets group 2 and the store group's successor list gains the edge
`(2, is_data_dep = true)`. -/
theorem claim1_witness :
    lookupGroup (dispatch (dispatch (initLSU 4 4 false)
        ⟨⟨false, true⟩, false, false, some ⟨true, 0, 8, none⟩, 0⟩).1
        ⟨⟨true, false⟩, false, false, some ⟨false, 4, 8, none⟩, 0⟩).1 1 =
      some (if (MemoryGroup.mk 0 0 1 0 0 [] [⟨true, 0, 8, none⟩]).isMemAccessAlias ⟨false, 4, 8, none⟩ = true
            then { (MemoryGroup.mk 0 0 1 0 0 [] [⟨true, 0, 8, none⟩]) with
                     Succs := [(2, true)] }
            else (MemoryGroup.mk 0 0 1 0 0 [] [⟨true, 0, 8, none⟩])) := by
  have h := (claim1_amended
    (dispatch (initLSU 4 4 false) ⟨⟨false, true⟩, false, false, some ⟨true, 0, 8, none⟩, 0⟩).1
    ⟨⟨true, false⟩, false, false, some ⟨false, 4, 8, none⟩, 0⟩
    (MemoryGroup.mk 0 0 1 0 0 [] [⟨true, 0, 8, none⟩]) ⟨false, 4, 8, none⟩
    (by decide) (by decide) (by decide) (by decide) (by decide) (by decide) (by decide)
    (by decide) (by decide)).2
  simpa using h

/-! ### Queue-counter lemmas (C5) -/

theorem dispatchStore_UsedLQ (s : LSUState) (i : Instr) :
    (dispatchStore s i).1.UsedLQEntries = s.UsedLQEntries := by
  simp [dispatchStore, addSuccessor, addInstructionTo, apply_ite LSUState.UsedLQEntries]

theorem dispatchStore_UsedSQ (s : LSUState) (i : Instr) :
    (dispatchStore s i).1.UsedSQEntries = s.UsedSQEntries := by
  simp [dispatchStore, addSuccessor, addInstructionTo, apply_ite LSUState.UsedSQEntries]

theorem dispatchLoad_UsedLQ (s : LSUState) (i : Instr) :
    (dispatchLoad s i).1.UsedLQEntries = s.UsedLQEntries := by
  by_cases h : shouldCreateANewGroup s i <;> by_cases h2 : i.IsALoadBarrier <;>
    simp [dispatchLoad, h, h2, addSuccessor, addInstructionTo, apply_ite LSUState.UsedLQEntries]

theorem dispatchLoad_UsedSQ (s : LSUState) (i : Instr) :
    (dispatchLoad s i).1.UsedSQEntries = s.UsedSQEntries := by
  by_cases h : shouldCreateANewGroup s i <;> by_cases h2 : i.IsALoadBarrier <;>
    simp [dispatchLoad, h, h2, addSuccessor, addInstructionTo, apply_ite LSUState.UsedSQEntries]

theorem dispatch_UsedLQ (s : LSUState) (i : Instr) :
    (dispatch s i).1.UsedLQEntries =
      s.UsedLQEntries + (if i.Desc.MayLoad = true then 1 else 0) := by
  by_cases hS : isStore i.Desc i.MDA <;> by_cases hL : i.Desc.MayLoad <;>
    simp [dispatch, hS, hL, dispatchStore_UsedLQ, dispatchLoad_UsedLQ]

theorem dispatch_UsedSQ (s : LSUState) (i : Instr) :
    (dispatch s i).1.UsedSQEntries =
      s.UsedSQEntries + (if isStore i.Desc i.MDA = true then 1 else 0) := by
  by_cases hS : isStore i.Desc i.MDA <;> by_cases hL : i.Desc.MayLoad <;>
    simp [dispatch, hS, hL, dispatchStore_UsedSQ, dispatchLoad_UsedSQ]

theorem onInstructionRetired_UsedLQ (s : LSUState) (i : Instr) :
    (onInstructionRetired s i).UsedLQEntries =
      s.UsedLQEntries - (if i.Desc.MayLoad = true then 1 else 0) := by
  by_cases hL : i.Desc.MayLoad <;> by_cases hS : isStore i.Desc i.MDA <;>
    simp [onInstructionRetired, hL, hS]

theorem onInstructionRetired_UsedSQ (s : LSUState) (i : Instr) :
    (onInstructionRetired s i).UsedSQEntries =
      s.UsedSQEntries - (if isStore i.Desc i.MDA = true then 1 else 0) := by
  by_cases hL : i.Desc.MayLoad <;> by_cases hS : isStore i.Desc i.MDA <;>
    simp [onInstructionRetired, hL, hS]

theorem bump_fields (l : List (Nat × Bool)) : ∀ s : LSUState,
    (bumpExecutedPredecessors s l).UsedLQEntries = s.UsedLQEntries ∧
    (bumpExecutedPredecessors s l).UsedSQEntries = s.UsedSQEntries ∧
    (bumpExecutedPredecessors s l).CurrentLoadGroupID = s.CurrentLoadGroupID ∧
    (bumpExecutedPredecessors s l).CurrentStoreGroupID = s.CurrentStoreGroupID ∧
    (bumpExecutedPredecessors s l).CurrentLoadBarrierGroupID = s.CurrentLoadBarrierGroupID ∧
    (bumpExecutedPredecessors s l).CurrentStoreBarrierGroupID = s.CurrentStoreBarrierGroupID ∧
    (bumpExecutedPredecessors s l).NextGroupID = s.NextGroupID ∧
    (∀ j, (lookupGID (bumpExecutedPredecessors s l).Groups j).isSome =
      (lookupGID s.Groups j).isSome) := by
  induction l with
  | nil => intro s; exact ⟨rfl, rfl, rfl, rfl, rfl, rfl, rfl, fun j => rfl⟩
  | cons hd tl ih =>
    intro s
    have hstep : bumpExecutedPredecessors s (hd :: tl) =
        bumpExecutedPredecessors (setGroup s hd.1 (fun g =>
          { g with NumExecutedPredecessors := g.NumExecutedPredecessors + 1 })) tl := rfl
    rw [hstep]
    obtain ⟨h1, h2, h3, h4, h5, h6, h7, h8⟩ := ih (setGroup s hd.1 (fun g =>
      { g with NumExecutedPredecessors := g.NumExecutedPredecessors + 1 }))
    refine ⟨by simpa using h1, by simpa using h2, by simpa using h3, by simpa using h4,
      by simpa using h5, by simpa using h6, by simpa using h7, ?_⟩
    intro j
    rw [h8 j]
    simp [lookupGID_update]
    split <;> simp

theorem base_exec_fields (s : LSUState) (i : Instr) (s1 : LSUState)
    (h : LSUnitBase_onInstructionExecuted s i = some s1) :
    s1.UsedLQEntries = s.UsedLQEntries ∧ s1.UsedSQEntries = s.UsedSQEntries ∧
    s1.CurrentLoadGroupID = s.CurrentLoadGroupID ∧
    s1.CurrentStoreGroupID = s.CurrentStoreGroupID ∧
    s1.CurrentLoadBarrierGroupID = s.CurrentLoadBarrierGroupID ∧
    s1.CurrentStoreBarrierGroupID = s.CurrentStoreBarrierGroupID ∧
    (∀ j, j ≠ i.LSUTokenID →
      (lookupGID s1.Groups j).isSome = (lookupGID s.Groups j).isSome) := by
  unfold LSUnitBase_onInstructionExecuted at h
  split at h
  · exact Option.noConfusion h
  · simp only [] at h
    split at h <;> cases h
    · obtain ⟨b1, b2, b3, b4, b5, b6, b7, b8⟩ :=
        bump_fields _ (setGroup s i.LSUTokenID MemoryGroup.onInstructionExecutedStep)
      refine ⟨by simpa using b1, by simpa using b2, by simpa using b3, by simpa using b4,
        by simpa using b5, by simpa using b6, ?_⟩
      intro j hj
      simp only [eraseGroup_Groups, lookupGID_remove, if_neg hj]
      rw [b8 j]
      simp only [setGroup_Groups, lookupGID_update]
      split <;> simp
    · refine ⟨rfl, rfl, rfl, rfl, rfl, rfl, ?_⟩
      intro j hj
      simp only [setGroup_Groups, lookupGID_update, if_neg hj]

theorem exec_counters (s : LSUState) (i : Instr) (s' : LSUState)
    (h : LSUnit_onInstructionExecuted s i = some s') :
    s'.UsedLQEntries = s.UsedLQEntries ∧ s'.UsedSQEntries = s.UsedSQEntries := by
  unfold LSUnit_onInstructionExecuted at h
  split at h
  · cases h
    exact ⟨rfl, rfl⟩
  · split at h
    · exact Option.noConfusion h
    · rename_i s1 heq
      obtain ⟨b1, b2, _⟩ := base_exec_fields s i s1 heq
      split at h <;> cases h
      · exact ⟨b1, b2⟩
      · exact ⟨b1, b2⟩

theorem runEvents_counters (evs : List LSUEvent) : ∀ s0 s : LSUState,
    runEvents s0 evs = some s →
    (∀ n, retLoadCount (evs.take n) ≤ s0.UsedLQEntries + dispLoadCount (evs.take n)) →
    (∀ n, retStoreCount (evs.take n) ≤ s0.UsedSQEntries + dispStoreCount (evs.take n)) →
    (s.UsedLQEntries + retLoadCount evs = s0.UsedLQEntries + dispLoadCount evs ∧
     s.UsedSQEntries + retStoreCount evs = s0.UsedSQEntries + dispStoreCount evs) := by
  induction evs with
  | nil =>
    intro s0 s h _ _
    cases h
    simp [dispLoadCount, dispStoreCount, retLoadCount, retStoreCount]
  | cons e t ih =>
    intro s0 s h hpl hps
    rw [runEvents] at h
    cases he : stepEvent s0 e with
    | none => rw [he] at h; exact Option.noConfusion h
    | some s1 =>
      rw [he] at h
      cases e with
      | dispatchEv i =>
        have hs1 : s1 = (dispatch s0 i).1 := by
          by_cases hmem : isMemOp i = true
          · simp [stepEvent, hmem] at he; exact he.symm
          · simp [stepEvent, hmem] at he
        have hL : s1.UsedLQEntries = s0.UsedLQEntries + (if i.Desc.MayLoad = true then 1 else 0) := by
          rw [hs1]; exact dispatch_UsedLQ s0 i
        have hS : s1.UsedSQEntries = s0.UsedSQEntries + (if isStore i.Desc i.MDA = true then 1 else 0) := by
          rw [hs1]; exact dispatch_UsedSQ s0 i
        have hd1 : dispLoadCount (LSUEvent.dispatchEv i :: t) =
            (if i.Desc.MayLoad = true then 1 else 0) + dispLoadCount t := rfl
        have hd2 : dispStoreCount (LSUEvent.dispatchEv i :: t) =
            (if isStore i.Desc i.MDA = true then 1 else 0) + dispStoreCount t := rfl
        have hr1 : retLoadCount (LSUEvent.dispatchEv i :: t) = retLoadCount t := rfl
        have hr2 : retStoreCount (LSUEvent.dispatchEv i :: t) = retStoreCount t := rfl
        obtain ⟨c1, c2⟩ := ih s1 s h
          (fun n => by
            have := hpl (n + 1)
            simp only [List.take_succ_cons] at this
            have e1 : retLoadCount (LSUEvent.dispatchEv i :: t.take n) = retLoadCount (t.take n) := rfl
            have e2 : dispLoadCount (LSUEvent.dispatchEv i :: t.take n) =
                (if i.Desc.MayLoad = true then 1 else 0) + dispLoadCount (t.take n) := rfl
            rw [e1, e2] at this
            omega)
          (fun n => by
            have := hps (n + 1)
            simp only [List.take_succ_cons] at this
            have e1 : retStoreCount (LSUEvent.dispatchEv i :: t.take n) = retStoreCount (t.take n) := rfl
            have e2 : dispStoreCount (LSUEvent.dispatchEv i :: t.take n) =
                (if isStore i.Desc i.MDA = true then 1 else 0) + dispStoreCount (t.take n) := rfl
            rw [e1, e2] at this
            omega)
        rw [hd1, hd2, hr1, hr2]
        omega
      | retireEv i =>
        have hs1 : s1 = onInstructionRetired s0 i := by
          by_cases hmem : (i.Desc.MayLoad || isStore i.Desc i.MDA) = true
          · simp [stepEvent, hmem] at he; exact he.symm
          · simp [stepEvent, hmem] at he
        have hL : s1.UsedLQEntries = s0.UsedLQEntries - (if i.Desc.MayLoad = true then 1 else 0) := by
          rw [hs1]; exact onInstructionRetired_UsedLQ s0 i
        have hS : s1.UsedSQEntries = s0.UsedSQEntries - (if isStore i.Desc i.MDA = true then 1 else 0) := by
          rw [hs1]; exact onInstructionRetired_UsedSQ s0 i
        have hbound1 : (if i.Desc.MayLoad = true then 1 else 0) ≤ s0.UsedLQEntries := by
          have := hpl 1
          simp only [List.take_succ_cons, List.take_zero] at this
          have e1 : retLoadCount [LSUEvent.retireEv i] = (if i.Desc.MayLoad = true then 1 else 0) := by
            simp [retLoadCount]
          have e2 : dispLoadCount [LSUEvent.retireEv i] = 0 := rfl
          rw [e1, e2] at this
          omega
        have hbound2 : (if isStore i.Desc i.MDA = true then 1 else 0) ≤ s0.UsedSQEntries := by
          have := hps 1
          simp only [List.take_succ_cons, List.take_zero] at this
          have e1 : retStoreCount [LSUEvent.retireEv i] = (if isStore i.Desc i.MDA = true then 1 else 0) := by
            simp [retStoreCount]
          have e2 : dispStoreCount [LSUEvent.retireEv i] = 0 := rfl
          rw [e1, e2] at this
          omega
        have hd1 : dispLoadCount (LSUEvent.retireEv i :: t) = dispLoadCount t := rfl
        have hd2 : dispStoreCount (LSUEvent.retireEv i :: t) = dispStoreCount t := rfl
        have hr1 : retLoadCount (LSUEvent.retireEv i :: t) =
            (if i.Desc.MayLoad = true then 1 else 0) + retLoadCount t := rfl
        have hr2 : retStoreCount (LSUEvent.retireEv i :: t) =
            (if isStore i.Desc i.MDA = true then 1 else 0) + retStoreCount t := rfl
        obtain ⟨c1, c2⟩ := ih s1 s h
          (fun n => by
            have := hpl (n + 1)
            simp only [List.take_succ_cons] at this
            have e1 : retLoadCount (LSUEvent.retireEv i :: t.take n) =
                (if i.Desc.MayLoad = true then 1 else 0) + retLoadCount (t.take n) := rfl
            have e2 : dispLoadCount (LSUEvent.retireEv i :: t.take n) = dispLoadCount (t.take n) := rfl
            rw [e1, e2] at this
            omega)
          (fun n => by
            have := hps (n + 1)
            simp only [List.take_succ_cons] at this
            have e1 : retStoreCount (LSUEvent.retireEv i :: t.take n) =
                (if isStore i.Desc i.MDA = true then 1 else 0) + retStoreCount (t.take n) := rfl
            have e2 : dispStoreCount (LSUEvent.retireEv i :: t.take n) = dispStoreCount (t.take n) := rfl
            rw [e1, e2] at this
            omega)
        rw [hd1, hd2, hr1, hr2]
        omega
      | executeEv i =>
        obtain ⟨c1, c2⟩ := exec_counters s0 i s1 he
        have hd1 : dispLoadCount (LSUEvent.executeEv i :: t) = dispLoadCount t := rfl
        have hd2 : dispStoreCount (LSUEvent.executeEv i :: t) = dispStoreCount t := rfl
        have hr1 : retLoadCount (LSUEvent.executeEv i :: t) = retLoadCount t := rfl
        have hr2 : retStoreCount (LSUEvent.executeEv i :: t) = retStoreCount t := rfl
        obtain ⟨d1, d2⟩ := ih s1 s h
          (fun n => by
            have := hpl (n + 1)
            simp only [List.take_succ_cons] at this
            have e1 : retLoadCount (LSUEvent.executeEv i :: t.take n) = retLoadCount (t.take n) := rfl
            have e2 : dispLoadCount (LSUEvent.executeEv i :: t.take n) = dispLoadCount (t.take n) := rfl
            rw [e1, e2] at this
            omega)
          (fun n => by
            have := hps (n + 1)
            simp only [List.take_succ_cons] at this
            have e1 : retStoreCount (LSUEvent.executeEv i :: t.take n) = retStoreCount (t.take n) := rfl
            have e2 : dispStoreCount (LSUEvent.executeEv i :: t.take n) = dispStoreCount (t.take n) := rfl
            rw [e1, e2] at this
            omega)
        rw [hd1, hd2, hr1, hr2]
        omega
      | cycleEv =>
        have hs1 : s1 = s0 := by simp [stepEvent, cycleEvent] at he; exact he.symm
        subst hs1
        have hd1 : dispLoadCount (LSUEvent.cycleEv :: t) = dispLoadCount t := rfl
        have hd2 : dispStoreCount (LSUEvent.cycleEv :: t) = dispStoreCount t := rfl
        have hr1 : retLoadCount (LSUEvent.cycleEv :: t) = retLoadCount t := rfl
        have hr2 : retStoreCount (LSUEvent.cycleEv :: t) = retStoreCount t := rfl
        obtain ⟨d1, d2⟩ := ih s1 s h
          (fun n => by
            have := hpl (n + 1)
            simp only [List.take_succ_cons] at this
            have e1 : retLoadCount (LSUEvent.cycleEv :: t.take n) = retLoadCount (t.take n) := rfl
            have e2 : dispLoadCount (LSUEvent.cycleEv :: t.take n) = dispLoadCount (t.take n) := rfl
            rw [e1, e2] at this
            omega)
          (fun n => by
            have := hps (n + 1)
            simp only [List.take_succ_cons] at this
            have e1 : retStoreCount (LSUEvent.cycleEv :: t.take n) = retStoreCount (t.take n) := rfl
            have e2 : dispStoreCount (LSUEvent.cycleEv :: t.take n) = dispStoreCount (t.take n) := rfl
            rw [e1, e2] at this
            omega)
        rw [hd1, hd2, hr1, hr2]
        omega

/-- C5: `dispatch` acquires a load-queue slot iff the instruction may load
and a store-queue slot iff it is a store; `on_instruction_retired` releases
under the same predicates; and along any operation sequence from the fresh
LSU in which retirements never outnumber prior dispatches of the same class
and every dispatched instruction is retired (equal totals), both queue
counters end at zero. -/
theorem claim5_queue_counters :
    (∀ s i, (dispatch s i).1.UsedLQEntries =
        s.UsedLQEntries + (if i.Desc.MayLoad = true then 1 else 0) ∧
      (dispatch s i).1.UsedSQEntries =
        s.UsedSQEntries + (if isStore i.Desc i.MDA = true then 1 else 0)) ∧
    (∀ s i, (onInstructionRetired s i).UsedLQEntries =
        s.UsedLQEntries - (if i.Desc.MayLoad = true then 1 else 0) ∧
      (onInstructionRetired s i).UsedSQEntries =
        s.UsedSQEntries - (if isStore i.Desc i.MDA = true then 1 else 0)) ∧
    (∀ lq sq na evs s, runEvents (initLSU lq sq na) evs = some s →
      (∀ n, retLoadCount (evs.take n) ≤ dispLoadCount (evs.take n)) →
      (∀ n, retStoreCount (evs.take n) ≤ dispStoreCount (evs.take n)) →
      retLoadCount evs = dispLoadCount evs →
      retStoreCount evs = dispStoreCount evs →
      s.UsedLQEntries = 0 ∧ s.UsedSQEntries = 0) := by
  refine ⟨fun s i => ⟨dispatch_UsedLQ s i, dispatch_UsedSQ s i⟩,
    fun s i => ⟨onInstructionRetired_UsedLQ s i, onInstructionRetired_UsedSQ s i⟩, ?_⟩
  intro lq sq na evs s h hpl hps htl hts
  obtain ⟨c1, c2⟩ := runEvents_counters evs (initLSU lq sq na) s h
    (fun n => by simpa [initLSU] using hpl n)
    (fun n => by simpa [initLSU] using hps n)
  simp only [initLSU] at c1 c2
  omega

/-- C5 witness: dispatching and then retiring the load `L@0/8` brings both
queue counters back to zero. -/
theorem claim5_witness :
    ((runEvents (initLSU 4 4 false)
        [LSUEvent.dispatchEv ⟨⟨true, false⟩, false, false, some ⟨false, 0, 8, none⟩, 1⟩,
         LSUEvent.retireEv ⟨⟨true, false⟩, false, false, some ⟨false, 0, 8, none⟩, 1⟩]).getD
      (initLSU 4 4 false)).UsedLQEntries = 0 ∧
    ((runEvents (initLSU 4 4 false)
        [LSUEvent.dispatchEv ⟨⟨true, false⟩, false, false, some ⟨false, 0, 8, none⟩, 1⟩,
         LSUEvent.retireEv ⟨⟨true, false⟩, false, false, some ⟨false, 0, 8, none⟩, 1⟩]).getD
      (initLSU 4 4 false)).UsedSQEntries = 0 :=
  claim5_queue_counters.2.2 4 4 false
    [LSUEvent.dispatchEv ⟨⟨true, false⟩, false, false, some ⟨false, 0, 8, none⟩, 1⟩,
     LSUEvent.retireEv ⟨⟨true, false⟩, false, false, some ⟨false, 0, 8, none⟩, 1⟩]
    _ (by decide)
    (fun n => by
      rcases n with _ | _ | n <;>
        simp [retLoadCount, dispLoadCount, List.take])
    (fun n => by
      rcases n with _ | _ | n <;>
        simp [retStoreCount, dispStoreCount, List.take])
    (by decide) (by decide)

/-! ### Pointer-liveness lemmas (C6) -/

theorem dispatch_keeps_valid (s : LSUState) (i : Instr) (k : Nat)
    (h : isValidGroupID s k = true) : isValidGroupID (dispatch s i).1 k = true :=
  (dispatch_lookup_isSome s i k).2 (Or.inr h)

theorem dispatch_new_valid (s : LSUState) (i : Instr)
    (h : isStore i.Desc i.MDA = true ∨ shouldCreateANewGroup s i = true) :
    isValidGroupID (dispatch s i).1 s.NextGroupID = true :=
  (dispatch_lookup_isSome s i s.NextGroupID).2 (Or.inl ⟨h, rfl⟩)

theorem dispatch_pointerLive (s : LSUState) (i : Instr) (hp : pointerLive s) :
    pointerLive (dispatch s i).1 := by
  obtain ⟨hp1, hp2, hp3, hp4⟩ := hp
  have keep : ∀ k, (k = 0 ∨ isValidGroupID s k = true) →
      (k = 0 ∨ isValidGroupID (dispatch s i).1 k = true) := by
    rintro k (h0 | hv)
    · exact Or.inl h0
    · exact Or.inr (dispatch_keeps_valid s i k hv)
  have hnewv : ∀ h : isStore i.Desc i.MDA = true ∨ shouldCreateANewGroup s i = true,
      (s.NextGroupID = 0 ∨ isValidGroupID (dispatch s i).1 s.NextGroupID = true) :=
    fun h => Or.inr (dispatch_new_valid s i h)
  refine ⟨?_, ?_, ?_, ?_⟩
  · rw [dispatch_CL]
    by_cases hS : isStore i.Desc i.MDA = true
    · by_cases hL : i.Desc.MayLoad = true
      · rw [if_pos hS, if_pos hL]; exact hnewv (Or.inl hS)
      · rw [if_pos hS, if_neg hL]; exact keep _ hp1
    · by_cases hC : shouldCreateANewGroup s i = true
      · rw [if_neg hS, if_pos hC]; exact hnewv (Or.inr hC)
      · rw [if_neg hS, if_neg hC]; exact keep _ hp1
  · rw [dispatch_CS]
    by_cases hS : isStore i.Desc i.MDA = true
    · rw [if_pos hS]; exact hnewv (Or.inl hS)
    · rw [if_neg hS]; exact keep _ hp2
  · rw [dispatch_CLB]
    by_cases hS : isStore i.Desc i.MDA = true
    · by_cases hL : i.Desc.MayLoad = true
      · by_cases hB : i.IsALoadBarrier = true
        · rw [if_pos hS, if_pos hL, if_pos hB]; exact hnewv (Or.inl hS)
        · rw [if_pos hS, if_pos hL, if_neg hB]; exact keep _ hp3
      · rw [if_pos hS, if_neg hL]; exact keep _ hp3
    · by_cases hC : shouldCreateANewGroup s i = true
      · by_cases hB : i.IsALoadBarrier = true
        · rw [if_neg hS, if_pos hC, if_pos hB]; exact hnewv (Or.inr hC)
        · rw [if_neg hS, if_pos hC, if_neg hB]; exact keep _ hp3
      · rw [if_neg hS, if_neg hC]; exact keep _ hp3
  · rw [dispatch_CSB]
    by_cases hS : isStore i.Desc i.MDA = true
    · by_cases hB : i.IsAStoreBarrier = true
      · rw [if_pos hS, if_pos hB]; exact hnewv (Or.inl hS)
      · rw [if_pos hS, if_neg hB]; exact keep _ hp4
    · rw [if_neg hS]; exact keep _ hp4

theorem exec_pointerLive (s : LSUState) (i : Instr) (s' : LSUState)
    (h : LSUnit_onInstructionExecuted s i = some s') (hp : pointerLive s) :
    pointerLive s' := by
  unfold LSUnit_onInstructionExecuted at h
  split at h
  · cases h; exact hp
  · split at h
    · exact Option.noConfusion h
    · rename_i s1 heq
      obtain ⟨_, _, p1, p2, p3, p4, hlk⟩ := base_exec_fields s i s1 heq
      split at h <;> (rw [Option.some_inj] at h; subst h)
      · rename_i hvalid
        have step : ∀ p : Nat, (p = 0 ∨ isValidGroupID s p = true) →
            (p = 0 ∨ isValidGroupID s1 p = true) := by
          rintro p (h0 | hv)
          · exact Or.inl h0
          · by_cases htok : p = i.LSUTokenID
            · subst htok; exact Or.inr hvalid
            · right
              show (lookupGID s1.Groups p).isSome = true
              rw [hlk p htok]
              exact hv
        exact ⟨by rw [p1]; exact step _ hp.1, by rw [p2]; exact step _ hp.2.1,
          by rw [p3]; exact step _ hp.2.2.1, by rw [p4]; exact step _ hp.2.2.2⟩
      · rename_i hvalid
        have step : ∀ pold : Nat, pold = 0 ∨ isValidGroupID s pold = true →
            ((if pold = i.LSUTokenID then 0 else pold) = 0 ∨
              isValidGroupID s1 (if pold = i.LSUTokenID then 0 else pold) = true) := by
          rintro pold hold
          by_cases htok : pold = i.LSUTokenID
          · rw [if_pos htok]; exact Or.inl rfl
          · rw [if_neg htok]
            rcases hold with h0 | hv
            · exact Or.inl h0
            · right
              show (lookupGID s1.Groups pold).isSome = true
              rw [hlk pold htok]
              exact hv
        refine ⟨?_, ?_, ?_, ?_⟩
        · have := step s1.CurrentLoadGroupID (p1 ▸ hp.1)
          simpa using this
        · have := step s1.CurrentStoreGroupID (p2 ▸ hp.2.1)
          simpa using this
        · have := step s1.CurrentLoadBarrierGroupID (p3 ▸ hp.2.2.1)
          simpa using this
        · have := step s1.CurrentStoreBarrierGroupID (p4 ▸ hp.2.2.2)
          simpa using this

theorem onInstructionRetired_Groups (s : LSUState) (i : Instr) :
    (onInstructionRetired s i).Groups = s.Groups := by
  by_cases hL : i.Desc.MayLoad <;> by_cases hS : isStore i.Desc i.MDA <;>
    simp [onInstructionRetired, hL, hS]

theorem onInstructionRetired_pointers (s : LSUState) (i : Instr) :
    (onInstructionRetired s i).CurrentLoadGroupID = s.CurrentLoadGroupID ∧
    (onInstructionRetired s i).CurrentStoreGroupID = s.CurrentStoreGroupID ∧
    (onInstructionRetired s i).CurrentLoadBarrierGroupID = s.CurrentLoadBarrierGroupID ∧
    (onInstructionRetired s i).CurrentStoreBarrierGroupID = s.CurrentStoreBarrierGroupID := by
  by_cases hL : i.Desc.MayLoad <;> by_cases hS : isStore i.Desc i.MDA <;>
    simp [onInstructionRetired, hL, hS, releaseLQSlot, releaseSQSlot]

theorem retire_pointerLive (s : LSUState) (i : Instr) (hp : pointerLive s) :
    pointerLive (onInstructionRetired s i) := by
  obtain ⟨q1, q2, q3, q4⟩ := onInstructionRetired_pointers s i
  have hval : ∀ k, isValidGroupID s k = true → isValidGroupID (onInstructionRetired s i) k = true := by
    intro k hv
    show (lookupGID (onInstructionRetired s i).Groups k).isSome = true
    rw [onInstructionRetired_Groups]
    exact hv
  refine ⟨?_, ?_, ?_, ?_⟩
  · rw [q1]; rcases hp.1 with h0 | hv
    · exact Or.inl h0
    · exact Or.inr (hval _ hv)
  · rw [q2]; rcases hp.2.1 with h0 | hv
    · exact Or.inl h0
    · exact Or.inr (hval _ hv)
  · rw [q3]; rcases hp.2.2.1 with h0 | hv
    · exact Or.inl h0
    · exact Or.inr (hval _ hv)
  · rw [q4]; rcases hp.2.2.2 with h0 | hv
    · exact Or.inl h0
    · exact Or.inr (hval _ hv)

theorem runEvents_pointerLive (evs : List LSUEvent) : ∀ s0 s : LSUState,
    runEvents s0 evs = some s → pointerLive s0 → pointerLive s := by
  induction evs with
  | nil => intro s0 s h hp; cases h; exact hp
  | cons e t ih =>
    intro s0 s h hp
    rw [runEvents] at h
    cases he : stepEvent s0 e with
    | none => rw [he] at h; exact Option.noConfusion h
    | some s1 =>
      rw [he] at h
      refine ih s1 s h ?_
      cases e with
      | dispatchEv i =>
        have hs1 : s1 = (dispatch s0 i).1 := by
          by_cases hmem : isMemOp i = true
          · simp [stepEvent, hmem] at he; exact he.symm
          · simp [stepEvent, hmem] at he
        rw [hs1]
        exact dispatch_pointerLive s0 i hp
      | executeEv i => exact exec_pointerLive s0 i s1 he hp
      | retireEv i =>
        have hs1 : s1 = onInstructionRetired s0 i := by
          by_cases hmem : (i.Desc.MayLoad || isStore i.Desc i.MDA) = true
          · simp [stepEvent, hmem] at he; exact he.symm
          · simp [stepEvent, hmem] at he
        rw [hs1]
        exact retire_pointerLive s0 i hp
      | cycleEv =>
        have hs1 : s1 = s0 := by simp [stepEvent, cycleEvent] at he; exact he.symm
        rw [hs1]; exact hp

/-- C6: along any operation sequence from the fresh LSU, each of the four
current pointers is 0 or the ID of a live group; and whenever the policy
executed-hook finishes with the stamped group ID no longer live, every
current pointer that referenced that ID has been cleared (none of the four
pointers equals the dead ID). -/
theorem claim6_pointer_liveness :
    (∀ lq sq na evs s, runEvents (initLSU lq sq na) evs = some s → pointerLive s) ∧
    (∀ s i s', isMemOp i = true → LSUnit_onInstructionExecuted s i = some s' →
      isValidGroupID s' i.LSUTokenID = false → i.LSUTokenID ≠ 0 →
      (s'.CurrentLoadGroupID ≠ i.LSUTokenID ∧ s'.CurrentStoreGroupID ≠ i.LSUTokenID ∧
       s'.CurrentLoadBarrierGroupID ≠ i.LSUTokenID ∧
       s'.CurrentStoreBarrierGroupID ≠ i.LSUTokenID)) := by
  constructor
  · intro lq sq na evs s h
    refine runEvents_pointerLive evs _ s h ?_
    exact ⟨Or.inl rfl, Or.inl rfl, Or.inl rfl, Or.inl rfl⟩
  · intro s i s' hmem h hdead htok
    unfold LSUnit_onInstructionExecuted at h
    split at h
    · rename_i hnm
      simp [hmem] at hnm
    · split at h
      · exact Option.noConfusion h
      · rename_i s1 heq
        split at h <;> (rw [Option.some_inj] at h; subst h)
        · rename_i hvalid
          exact absurd hvalid (by simp [hdead])
        · refine ⟨?_, ?_, ?_, ?_⟩ <;>
            · dsimp only
              split
              · exact Ne.symm htok
              · assumption

/-- C6 witness: dispatch the load (group 1, stamped token 1) and execute it;
the group is erased and every current pointer is cleared, so the final state
satisfies the liveness invariant and no pointer equals the dead ID 1. -/
theorem claim6_witness :
    pointerLive ((runEvents (initLSU 4 4 false)
        [LSUEvent.dispatchEv ⟨⟨true, false⟩, false, false, some ⟨false, 0, 8, none⟩, 1⟩,
         LSUEvent.executeEv ⟨⟨true, false⟩, false, false, some ⟨false, 0, 8, none⟩, 1⟩]).getD
      (initLSU 4 4 false)) ∧
    (((LSUnit_onInstructionExecuted
          (dispatch (initLSU 4 4 false) ⟨⟨true, false⟩, false, false, some ⟨false, 0, 8, none⟩, 1⟩).1
          ⟨⟨true, false⟩, false, false, some ⟨false, 0, 8, none⟩, 1⟩).getD
        (initLSU 4 4 false)).CurrentLoadGroupID ≠ 1 ∧
     ((LSUnit_onInstructionExecuted
          (dispatch (initLSU 4 4 false) ⟨⟨true, false⟩, false, false, some ⟨false, 0, 8, none⟩, 1⟩).1
          ⟨⟨true, false⟩, false, false, some ⟨false, 0, 8, none⟩, 1⟩).getD
        (initLSU 4 4 false)).CurrentStoreGroupID ≠ 1 ∧
     ((LSUnit_onInstructionExecuted
          (dispatch (initLSU 4 4 false) ⟨⟨true, false⟩, false, false, some ⟨false, 0, 8, none⟩, 1⟩).1
          ⟨⟨true, false⟩, false, false, some ⟨false, 0, 8, none⟩, 1⟩).getD
        (initLSU 4 4 false)).CurrentLoadBarrierGroupID ≠ 1 ∧
     ((LSUnit_onInstructionExecuted
          (dispatch (initLSU 4 4 false) ⟨⟨true, false⟩, false, false, some ⟨false, 0, 8, none⟩, 1⟩).1
          ⟨⟨true, false⟩, false, false, some ⟨false, 0, 8, none⟩, 1⟩).getD
        (initLSU 4 4 false)).CurrentStoreBarrierGroupID ≠ 1) :=
  ⟨claim6_pointer_liveness.1 4 4 false
      [LSUEvent.dispatchEv ⟨⟨true, false⟩, false, false, some ⟨false, 0, 8, none⟩, 1⟩,
       LSUEvent.executeEv ⟨⟨true, false⟩, false, false, some ⟨false, 0, 8, none⟩, 1⟩]
      ((runEvents (initLSU 4 4 false)
        [LSUEvent.dispatchEv ⟨⟨true, false⟩, false, false, some ⟨false, 0, 8, none⟩, 1⟩,
         LSUEvent.executeEv ⟨⟨true, false⟩, false, false, some ⟨false, 0, 8, none⟩, 1⟩]).getD
      (initLSU 4 4 false)) (by decide),
   claim6_pointer_liveness.2
      (dispatch (initLSU 4 4 false) ⟨⟨true, false⟩, false, false, some ⟨false, 0, 8, none⟩, 1⟩).1
      ⟨⟨true, false⟩, false, false, some ⟨false, 0, 8, none⟩, 1⟩
      ((LSUnit_onInstructionExecuted
          (dispatch (initLSU 4 4 false) ⟨⟨true, false⟩, false, false, some ⟨false, 0, 8, none⟩, 1⟩).1
          ⟨⟨true, false⟩, false, false, some ⟨false, 0, 8, none⟩, 1⟩).getD
        (initLSU 4 4 false))
      (by decide) (by decide) (by decide) (by decide)⟩

/-! ### Successor-edge lemmas (C2) -/

/-- Edge predicate on a raw group table. -/
def edgeIn (l : List (Nat × MemoryGroup)) (a b : Nat) : Prop :=
  ∃ g d, lookupGID l a = some g ∧ (b, d) ∈ g.Succs

theorem succEdge_def (s : LSUState) (a b : Nat) : succEdge s a b ↔ edgeIn s.Groups a b := Iff.rfl

theorem edgeIn_update (l : List (Nat × MemoryGroup)) (k : Nat) (f : MemoryGroup → MemoryGroup)
    (a b : Nat) (hf : ∀ g, ∃ t, (f g).Succs = g.Succs ++ t) (h : edgeIn l a b) :
    edgeIn (updateGID l k f) a b := by
  obtain ⟨g, d, hg, hmem⟩ := h
  by_cases hak : a = k
  · subst hak
    obtain ⟨t, ht⟩ := hf g
    refine ⟨f g, d, ?_, ?_⟩
    · rw [lookupGID_update, if_pos rfl, hg]
      rfl
    · rw [ht]
      exact List.mem_append_left t hmem
  · exact ⟨g, d, by rw [lookupGID_update, if_neg hak]; exact hg, hmem⟩

theorem edgeIn_cons (l : List (Nat × MemoryGroup)) (n : Nat) (g0 : MemoryGroup) (a b : Nat)
    (hfresh : lookupGID l n = none) (h : edgeIn l a b) : edgeIn ((n, g0) :: l) a b := by
  obtain ⟨g, d, hg, hmem⟩ := h
  have hna : n ≠ a := by
    intro hna
    subst hna
    rw [hfresh] at hg
    exact Option.noConfusion hg
  exact ⟨g, d, by rw [lookupGID_cons, if_neg hna]; exact hg, hmem⟩

theorem edgeIn_update_intro (l : List (Nat × MemoryGroup)) (src n : Nat) (d : Bool)
    (g : MemoryGroup) (hlk : lookupGID l src = some g) :
    edgeIn (updateGID l src (fun h => { h with Succs := h.Succs ++ [(n, d)] })) src n := by
  refine ⟨{ g with Succs := g.Succs ++ [(n, d)] }, d, ?_, ?_⟩
  · rw [lookupGID_update, if_pos rfl, hlk]
    rfl
  · exact List.mem_append_right _ (List.mem_singleton_self _)

theorem isSome_lookupGID_update (l : List (Nat × MemoryGroup)) (k : Nat)
    (f : MemoryGroup → MemoryGroup) (j : Nat) :
    (lookupGID (updateGID l k f) j).isSome = (lookupGID l j).isSome := by
  rw [lookupGID_update]
  split <;> simp

set_option maxHeartbeats 2000000 in
theorem dispatchStore_edge_mono (s : LSUState) (i : Instr) (a b : Nat)
    (hfresh : lookupGID s.Groups s.NextGroupID = none)
    (h : succEdge s a b) : succEdge (dispatchStore s i).1 a b := by
  rw [succEdge_def] at h ⊢
  cases hmda : i.MDA <;>
    (simp only [dispatchStore, hmda, addMemAccessTo, addInstructionTo, addSuccessor,
      setGroup_Groups, createMemoryGroup_Groups, apply_ite LSUState.Groups, ite_self]
     (try split_ifs) <;>
       (repeat
          first
            | exact edgeIn_cons _ _ _ _ _ hfresh h
            | refine edgeIn_update _ _ _ _ _ (fun g => ⟨_, rfl⟩) ?_
            | refine edgeIn_update _ _ _ _ _ (fun g => ⟨[], (List.append_nil g.Succs).symm⟩) ?_
            | exact h))

set_option maxHeartbeats 2000000 in
theorem dispatchLoad_edge_mono (s : LSUState) (i : Instr) (a b : Nat)
    (hfresh : lookupGID s.Groups s.NextGroupID = none)
    (h : succEdge s a b) : succEdge (dispatchLoad s i).1 a b := by
  rw [succEdge_def] at h ⊢
  by_cases hC : shouldCreateANewGroup s i <;>
    cases hmda : i.MDA <;>
      (simp only [dispatchLoad, hC, if_true, Bool.false_eq_true, if_false, hmda,
        addMemAccessTo, addInstructionTo, addSuccessor, setGroup_Groups, createMemoryGroup_Groups,
        apply_ite LSUState.Groups, ite_self]
       (try split_ifs) <;>
         (repeat
            first
              | exact edgeIn_cons _ _ _ _ _ hfresh h
              | refine edgeIn_update _ _ _ _ _ (fun g => ⟨_, rfl⟩) ?_
              | refine edgeIn_update _ _ _ _ _ (fun g => ⟨[], (List.append_nil g.Succs).symm⟩) ?_
              | exact h))

theorem dispatch_edge_mono (s : LSUState) (i : Instr) (a b : Nat)
    (hfresh : lookupGID s.Groups s.NextGroupID = none)
    (h : succEdge s a b) : succEdge (dispatch s i).1 a b := by
  by_cases hS : isStore i.Desc i.MDA = true <;> by_cases hL : i.Desc.MayLoad = true <;>
    simp only [dispatch, hS, hL, if_true, Bool.false_eq_true, if_false] <;>
    first
      | exact dispatchStore_edge_mono (acquireSQSlot (acquireLQSlot s)) i a b hfresh h
      | exact dispatchStore_edge_mono (acquireSQSlot s) i a b hfresh h
      | exact dispatchLoad_edge_mono (acquireLQSlot s) i a b hfresh h
      | exact dispatchLoad_edge_mono s i a b hfresh h

theorem edgeIn_update_intro' (l : List (Nat × MemoryGroup)) (src n : Nat) (d : Bool)
    (hlk : (lookupGID l src).isSome = true) :
    edgeIn (updateGID l src (fun h => { h with Succs := h.Succs ++ [(n, d)] })) src n := by
  obtain ⟨g, hg⟩ := Option.isSome_iff_exists.mp hlk
  exact edgeIn_update_intro l src n d g hg

set_option maxHeartbeats 2000000 in
theorem dispatchStore_idom_edge (s : LSUState) (i : Instr)
    (hidom : max s.CurrentLoadGroupID s.CurrentLoadBarrierGroupID ≠ 0)
    (hne : s.NextGroupID ≠ max s.CurrentLoadGroupID s.CurrentLoadBarrierGroupID)
    (hlive : (lookupGID s.Groups (max s.CurrentLoadGroupID s.CurrentLoadBarrierGroupID)).isSome = true) :
    succEdge (dispatchStore s i).1
      (max s.CurrentLoadGroupID s.CurrentLoadBarrierGroupID) s.NextGroupID := by
  rw [succEdge_def]
  cases hmda : i.MDA <;>
    (simp only [dispatchStore, hmda, addMemAccessTo, addInstructionTo, addSuccessor,
      setGroup_Groups, createMemoryGroup_Groups, apply_ite LSUState.Groups, ite_self]
     (try split_ifs) <;>
       first
         | contradiction
         | (repeat
              first
                | (refine edgeIn_update_intro' _ _ _ _ ?_
                   simp only [isSome_lookupGID_update, lookupGID_cons]
                   rw [if_neg hne]
                   exact hlive)
                | refine edgeIn_update _ _ _ _ _ (fun g => ⟨_, rfl⟩) ?_
                | refine edgeIn_update _ _ _ _ _ (fun g => ⟨[], (List.append_nil g.Succs).symm⟩) ?_))

set_option maxHeartbeats 2000000 in
theorem dispatchLoad_idom_edge (s : LSUState) (i : Instr)
    (hC : shouldCreateANewGroup s i = true) (hLB : i.IsALoadBarrier = true)
    (hidom : max s.CurrentLoadGroupID s.CurrentLoadBarrierGroupID ≠ 0)
    (hne : s.NextGroupID ≠ max s.CurrentLoadGroupID s.CurrentLoadBarrierGroupID)
    (hlive : (lookupGID s.Groups (max s.CurrentLoadGroupID s.CurrentLoadBarrierGroupID)).isSome = true) :
    succEdge (dispatchLoad s i).1
      (max s.CurrentLoadGroupID s.CurrentLoadBarrierGroupID) s.NextGroupID := by
  rw [succEdge_def]
  cases hmda : i.MDA <;>
    (simp only [dispatchLoad, hC, if_true, hLB, hmda, addMemAccessTo, addInstructionTo,
      addSuccessor, setGroup_Groups, createMemoryGroup_Groups, apply_ite LSUState.Groups, ite_self]
     (try split_ifs) <;>
       first
         | contradiction
         | (repeat
              first
                | (refine edgeIn_update_intro' _ _ _ _ ?_
                   simp only [isSome_lookupGID_update, lookupGID_cons]
                   rw [if_neg hne]
                   exact hlive)
                | refine edgeIn_update _ _ _ _ _ (fun g => ⟨_, rfl⟩) ?_
                | refine edgeIn_update _ _ _ _ _ (fun g => ⟨[], (List.append_nil g.Succs).symm⟩) ?_))

set_option maxHeartbeats 2000000 in
theorem dispatchLoad_clb_edge (s : LSUState) (i : Instr)
    (hC : shouldCreateANewGroup s i = true) (hLB : i.IsALoadBarrier = false)
    (hclb : s.CurrentLoadBarrierGroupID ≠ 0)
    (hne : s.NextGroupID ≠ s.CurrentLoadBarrierGroupID)
    (hlive : (lookupGID s.Groups s.CurrentLoadBarrierGroupID).isSome = true) :
    succEdge (dispatchLoad s i).1 s.CurrentLoadBarrierGroupID s.NextGroupID := by
  rw [succEdge_def]
  cases hmda : i.MDA <;>
    (simp only [dispatchLoad, hC, if_true, hLB, Bool.false_eq_true, if_false, hmda,
      addMemAccessTo, addInstructionTo, addSuccessor, setGroup_Groups, createMemoryGroup_Groups,
      apply_ite LSUState.Groups, ite_self]
     (try split_ifs) <;>
       first
         | contradiction
         | (repeat
              first
                | (refine edgeIn_update_intro' _ _ _ _ ?_
                   simp only [isSome_lookupGID_update, lookupGID_cons]
                   rw [if_neg hne]
                   exact hlive)
                | refine edgeIn_update _ _ _ _ _ (fun g => ⟨_, rfl⟩) ?_
                | refine edgeIn_update _ _ _ _ _ (fun g => ⟨[], (List.append_nil g.Succs).symm⟩) ?_))

theorem dispatch_store_idom_edge (s : LSUState) (i : Instr) (hS : isStore i.Desc i.MDA = true)
    (hidom : max s.CurrentLoadGroupID s.CurrentLoadBarrierGroupID ≠ 0)
    (hne : s.NextGroupID ≠ max s.CurrentLoadGroupID s.CurrentLoadBarrierGroupID)
    (hlive : (lookupGID s.Groups (max s.CurrentLoadGroupID s.CurrentLoadBarrierGroupID)).isSome = true) :
    succEdge (dispatch s i).1
      (max s.CurrentLoadGroupID s.CurrentLoadBarrierGroupID) s.NextGroupID := by
  by_cases hL : i.Desc.MayLoad = true <;>
    simp only [dispatch, hS, hL, if_true, Bool.false_eq_true, if_false, eq_self_iff_true] <;>
    first
      | simpa using dispatchStore_idom_edge (acquireSQSlot (acquireLQSlot s)) i hidom hne hlive
      | simpa using dispatchStore_idom_edge (acquireSQSlot s) i hidom hne hlive

theorem dispatch_load_idom_edge (s : LSUState) (i : Instr) (hS : isStore i.Desc i.MDA = false)
    (hC : shouldCreateANewGroup s i = true) (hLB : i.IsALoadBarrier = true)
    (hidom : max s.CurrentLoadGroupID s.CurrentLoadBarrierGroupID ≠ 0)
    (hne : s.NextGroupID ≠ max s.CurrentLoadGroupID s.CurrentLoadBarrierGroupID)
    (hlive : (lookupGID s.Groups (max s.CurrentLoadGroupID s.CurrentLoadBarrierGroupID)).isSome = true) :
    succEdge (dispatch s i).1
      (max s.CurrentLoadGroupID s.CurrentLoadBarrierGroupID) s.NextGroupID := by
  by_cases hL : i.Desc.MayLoad = true <;>
    simp only [dispatch, hS, hL, if_true, Bool.false_eq_true, if_false, eq_self_iff_true] <;>
    first
      | simpa using dispatchLoad_idom_edge (acquireLQSlot s) i hC hLB hidom hne hlive
      | simpa using dispatchLoad_idom_edge s i hC hLB hidom hne hlive

theorem dispatch_load_clb_edge (s : LSUState) (i : Instr) (hS : isStore i.Desc i.MDA = false)
    (hC : shouldCreateANewGroup s i = true) (hLB : i.IsALoadBarrier = false)
    (hclb : s.CurrentLoadBarrierGroupID ≠ 0)
    (hne : s.NextGroupID ≠ s.CurrentLoadBarrierGroupID)
    (hlive : (lookupGID s.Groups s.CurrentLoadBarrierGroupID).isSome = true) :
    succEdge (dispatch s i).1 s.CurrentLoadBarrierGroupID s.NextGroupID := by
  by_cases hL : i.Desc.MayLoad = true <;>
    simp only [dispatch, hS, hL, if_true, Bool.false_eq_true, if_false, eq_self_iff_true] <;>
    first
      | simpa using dispatchLoad_clb_edge (acquireLQSlot s) i hC hLB hclb hne hlive
      | simpa using dispatchLoad_clb_edge s i hC hLB hclb hne hlive

/-- Basic well-formedness of an LSU state: the allocator dominates every
pointer and every live key. -/
def WFS (s : LSUState) : Prop :=
  0 < s.NextGroupID ∧
  s.CurrentLoadGroupID < s.NextGroupID ∧
  s.CurrentStoreGroupID < s.NextGroupID ∧
  s.CurrentLoadBarrierGroupID < s.NextGroupID ∧
  s.CurrentStoreBarrierGroupID < s.NextGroupID ∧
  (∀ k, (lookupGroup s k).isSome = true → k < s.NextGroupID)

theorem WFS_init (lq sq : Nat) (na : Bool) : WFS (initLSU lq sq na) := by
  refine ⟨Nat.one_pos, Nat.one_pos, Nat.one_pos, Nat.one_pos, Nat.one_pos, ?_⟩
  intro k hk
  simp [initLSU, lookupGroup, lookupGID] at hk

theorem WFS_fresh (s : LSUState) (h : WFS s) :
    lookupGID s.Groups s.NextGroupID = none := by
  cases hx : lookupGID s.Groups s.NextGroupID with
  | none => rfl
  | some g =>
    have := h.2.2.2.2.2 s.NextGroupID (by rw [lookupGroup_eq, hx]; rfl)
    omega

theorem WFS_dispatch (s : LSUState) (i : Instr) (h : WFS s) : WFS (dispatch s i).1 := by
  obtain ⟨w0, w1, w2, w3, w4, w5⟩ := h
  have hmono : s.NextGroupID ≤ (dispatch s i).1.NextGroupID := by
    rw [dispatch_NextGroupID]; split_ifs <;> omega
  have halloc : ∀ hco : isStore i.Desc i.MDA = true ∨ shouldCreateANewGroup s i = true,
      (dispatch s i).1.NextGroupID = s.NextGroupID + 1 := by
    intro hco
    rw [dispatch_NextGroupID]
    rcases hco with hco | hco
    · rw [if_pos hco]
    · split_ifs <;> rfl
  refine ⟨by omega, ?_, ?_, ?_, ?_, ?_⟩
  · rw [dispatch_CL, dispatch_NextGroupID]; split_ifs <;> omega
  · rw [dispatch_CS, dispatch_NextGroupID]; split_ifs <;> omega
  · rw [dispatch_CLB, dispatch_NextGroupID]; split_ifs <;> omega
  · rw [dispatch_CSB, dispatch_NextGroupID]; split_ifs <;> omega
  · intro k hk
    rcases (dispatch_lookup_isSome s i k).1 hk with ⟨hco, hkn⟩ | hold
    · rw [halloc hco]
      omega
    · have := w5 k hold
      omega

theorem WFS_dispatchAll (l : List Instr) : ∀ s : LSUState, WFS s → WFS (dispatchAll s l) := by
  induction l with
  | nil => intro s h; exact h
  | cons i t ih =>
    intro s h
    have hstep : dispatchAll s (i :: t) = dispatchAll (dispatch s i).1 t := rfl
    rw [hstep]
    exact ih _ (WFS_dispatch s i h)

/-- The inductive invariant after a load barrier with group `bgid`: the load
pointers dominate `bgid`, stay live, and are reachable from `bgid`. -/
def InvB (bgid : Nat) (s : LSUState) : Prop :=
  0 < bgid ∧
  bgid ≤ s.CurrentLoadBarrierGroupID ∧
  s.CurrentLoadBarrierGroupID ≤ s.CurrentLoadGroupID ∧
  WFS s ∧
  (lookupGroup s s.CurrentLoadGroupID).isSome = true ∧
  (lookupGroup s s.CurrentLoadBarrierGroupID).isSome = true ∧
  (s.CurrentLoadGroupID = bgid ∨ Relation.TransGen (succEdge s) bgid s.CurrentLoadGroupID) ∧
  (s.CurrentLoadBarrierGroupID = bgid ∨ Relation.TransGen (succEdge s) bgid s.CurrentLoadBarrierGroupID)

theorem InvB_step (bgid : Nat) (s : LSUState) (i : Instr) (h : InvB bgid s) :
    InvB bgid (dispatch s i).1 ∧
    Relation.TransGen (succEdge (dispatch s i).1) bgid (dispatch s i).2 := by
  obtain ⟨hb0, hb1, hb2, hWF, hliveCL, hliveCLB, hRCL, hRCLB⟩ := h
  obtain ⟨w0, w1, w2, w3, w4, w5⟩ := hWF
  have hWFv : WFS s := ⟨w0, w1, w2, w3, w4, w5⟩
  have hfresh : lookupGID s.Groups s.NextGroupID = none := WFS_fresh s hWFv
  have hWF' : WFS (dispatch s i).1 := WFS_dispatch s i hWFv
  have hCL0 : s.CurrentLoadGroupID ≠ 0 := by omega
  have hCLB0 : s.CurrentLoadBarrierGroupID ≠ 0 := by omega
  have hmax : max s.CurrentLoadGroupID s.CurrentLoadBarrierGroupID = s.CurrentLoadGroupID :=
    max_eq_left hb2
  have hidom0 : max s.CurrentLoadGroupID s.CurrentLoadBarrierGroupID ≠ 0 := by
    rw [hmax]; exact hCL0
  have hneN : s.NextGroupID ≠ max s.CurrentLoadGroupID s.CurrentLoadBarrierGroupID := by
    rw [hmax]; omega
  have hneNclb : s.NextGroupID ≠ s.CurrentLoadBarrierGroupID := by omega
  have hmaxlive : (lookupGID s.Groups
      (max s.CurrentLoadGroupID s.CurrentLoadBarrierGroupID)).isSome = true := by
    rw [hmax]; exact hliveCL
  have hmonoT : ∀ x y, Relation.TransGen (succEdge s) x y →
      Relation.TransGen (succEdge (dispatch s i).1) x y :=
    fun x y ht =>
      Relation.TransGen.mono (fun a b hab => dispatch_edge_mono s i a b hfresh hab) ht
  have transportR : ∀ p, (p = bgid ∨ Relation.TransGen (succEdge s) bgid p) →
      (p = bgid ∨ Relation.TransGen (succEdge (dispatch s i).1) bgid p) := by
    rintro p (h0 | hT)
    · exact Or.inl h0
    · exact Or.inr (hmonoT _ _ hT)
  have hkeep : ∀ k, (lookupGroup s k).isSome = true →
      (lookupGroup (dispatch s i).1 k).isSome = true := by
    intro k hk
    exact (dispatch_lookup_isSome s i k).2 (Or.inr hk)
  by_cases hS : isStore i.Desc i.MDA = true
  · have hedge : succEdge (dispatch s i).1 s.CurrentLoadGroupID s.NextGroupID := by
      have := dispatch_store_idom_edge s i hS hidom0 hneN hmaxlive
      rwa [hmax] at this
    have hRn : Relation.TransGen (succEdge (dispatch s i).1) bgid s.NextGroupID := by
      rcases hRCL with heq | hT
      · exact Relation.TransGen.single (heq ▸ hedge)
      · exact Relation.TransGen.tail (hmonoT _ _ hT) hedge
    have hvn : (lookupGroup (dispatch s i).1 s.NextGroupID).isSome = true :=
      (dispatch_lookup_isSome s i s.NextGroupID).2 (Or.inl ⟨Or.inl hS, rfl⟩)
    refine ⟨⟨hb0, ?_, ?_, hWF', ?_, ?_, ?_, ?_⟩, ?_⟩
    · rw [dispatch_CLB, if_pos hS]; split_ifs <;> omega
    · rw [dispatch_CLB, dispatch_CL, if_pos hS, if_pos hS]; split_ifs <;> omega
    · rw [dispatch_CL, if_pos hS]
      split_ifs
      · exact hvn
      · exact hkeep _ hliveCL
    · rw [dispatch_CLB, if_pos hS]
      split_ifs
      · exact hvn
      · exact hkeep _ hliveCLB
      · exact hkeep _ hliveCLB
    · rw [dispatch_CL, if_pos hS]
      split_ifs
      · exact Or.inr hRn
      · exact transportR _ hRCL
    · rw [dispatch_CLB, if_pos hS]
      split_ifs
      · exact Or.inr hRn
      · exact transportR _ hRCLB
      · exact transportR _ hRCLB
    · rw [dispatch_snd, if_pos hS]; exact hRn
  · have hS' : isStore i.Desc i.MDA = false := by simpa using hS
    by_cases hC : shouldCreateANewGroup s i = true
    · have hvn : (lookupGroup (dispatch s i).1 s.NextGroupID).isSome = true :=
        (dispatch_lookup_isSome s i s.NextGroupID).2 (Or.inl ⟨Or.inr hC, rfl⟩)
      have hRn : Relation.TransGen (succEdge (dispatch s i).1) bgid s.NextGroupID := by
        by_cases hLB : i.IsALoadBarrier = true
        · have hedge : succEdge (dispatch s i).1 s.CurrentLoadGroupID s.NextGroupID := by
            have := dispatch_load_idom_edge s i hS' hC hLB hidom0 hneN hmaxlive
            rwa [hmax] at this
          rcases hRCL with heq | hT
          · exact Relation.TransGen.single (heq ▸ hedge)
          · exact Relation.TransGen.tail (hmonoT _ _ hT) hedge
        · have hLB' : i.IsALoadBarrier = false := by simpa using hLB
          have hedge : succEdge (dispatch s i).1 s.CurrentLoadBarrierGroupID s.NextGroupID :=
            dispatch_load_clb_edge s i hS' hC hLB' hCLB0 hneNclb hliveCLB
          rcases hRCLB with heq | hT
          · exact Relation.TransGen.single (heq ▸ hedge)
          · exact Relation.TransGen.tail (hmonoT _ _ hT) hedge
      refine ⟨⟨hb0, ?_, ?_, hWF', ?_, ?_, ?_, ?_⟩, ?_⟩
      · simp only [dispatch_CLB, hS', Bool.false_eq_true, if_false, hC, if_true]
        split_ifs <;> omega
      · simp only [dispatch_CLB, dispatch_CL, hS', Bool.false_eq_true, if_false, hC, if_true]
        split_ifs <;> omega
      · simp only [dispatch_CL, hS', Bool.false_eq_true, if_false, hC, if_true]
        exact hvn
      · simp only [dispatch_CLB, hS', Bool.false_eq_true, if_false, hC, if_true]
        split_ifs
        · exact hvn
        · exact hkeep _ hliveCLB
      · simp only [dispatch_CL, hS', Bool.false_eq_true, if_false, hC, if_true]
        exact Or.inr hRn
      · simp only [dispatch_CLB, hS', Bool.false_eq_true, if_false, hC, if_true]
        split_ifs
        · exact Or.inr hRn
        · exact transportR _ hRCLB
      · simp only [dispatch_snd, hS', Bool.false_eq_true, if_false, hC, if_true]
        exact hRn
    · have hC' : shouldCreateANewGroup s i = false := by simpa using hC
      have hCLne : s.CurrentLoadGroupID ≠ bgid := by
        intro heq
        apply hC
        refine (shouldCreateANewGroup_iff s i).2 (Or.inr (Or.inr (Or.inl ?_)))
        rw [hmax]
        omega
      have hTCL : Relation.TransGen (succEdge s) bgid s.CurrentLoadGroupID :=
        hRCL.resolve_left hCLne
      refine ⟨⟨hb0, ?_, ?_, hWF', ?_, ?_, ?_, ?_⟩, ?_⟩
      · simp only [dispatch_CLB, hS', Bool.false_eq_true, if_false, hC', if_true]
        exact hb1
      · simp only [dispatch_CLB, dispatch_CL, hS', Bool.false_eq_true, if_false, hC', if_true]
        exact hb2
      · simp only [dispatch_CL, hS', Bool.false_eq_true, if_false, hC', if_true]
        exact hkeep _ hliveCL
      · simp only [dispatch_CLB, hS', Bool.false_eq_true, if_false, hC', if_true]
        exact hkeep _ hliveCLB
      · simp only [dispatch_CL, hS', Bool.false_eq_true, if_false, hC', if_true]
        exact transportR _ hRCL
      · simp only [dispatch_CLB, hS', Bool.false_eq_true, if_false, hC', if_true]
        exact transportR _ hRCLB
      · simp only [dispatch_snd, hS', Bool.false_eq_true, if_false, hC', if_true]
        exact hmonoT _ _ hTCL

theorem InvB_run (l : List Instr) (bgid : Nat) : ∀ s : LSUState,
    InvB bgid s → InvB bgid (dispatchAll s l) := by
  induction l with
  | nil => intro s h; exact h
  | cons i t ih =>
    intro s h
    have hstep : dispatchAll s (i :: t) = dispatchAll (dispatch s i).1 t := rfl
    rw [hstep]
    exact ih _ (InvB_step bgid s i h).1

theorem InvB_establish (s : LSUState) (B : Instr) (hWF : WFS s)
    (hBL : B.Desc.MayLoad = true) (hBB : B.IsALoadBarrier = true) :
    InvB s.NextGroupID (dispatch s B).1 ∧ (dispatch s B).2 = s.NextGroupID := by
  obtain ⟨w0, w1, w2, w3, w4, w5⟩ := hWF
  have hWFv : WFS s := ⟨w0, w1, w2, w3, w4, w5⟩
  have hCB : isStore B.Desc B.MDA = true ∨ shouldCreateANewGroup s B = true := by
    by_cases hS : isStore B.Desc B.MDA = true
    · exact Or.inl hS
    · exact Or.inr ((shouldCreateANewGroup_iff s B).2 (Or.inl hBB))
  have hsnd : (dispatch s B).2 = s.NextGroupID := by
    rw [dispatch_snd]
    rcases hCB with h | h
    · rw [if_pos h]
    · split_ifs <;> rfl
  have hCL' : (dispatch s B).1.CurrentLoadGroupID = s.NextGroupID := by
    rw [dispatch_CL]
    split_ifs <;>
      first
        | rfl
        | (exact absurd hBL (by assumption))
        | (rcases hCB with hx | hx <;> exact absurd hx (by assumption))
  have hCLB' : (dispatch s B).1.CurrentLoadBarrierGroupID = s.NextGroupID := by
    rw [dispatch_CLB]
    split_ifs <;>
      first
        | rfl
        | (exact absurd hBL (by assumption))
        | (exact absurd hBB (by assumption))
        | (rcases hCB with hx | hx <;> exact absurd hx (by assumption))
  have hWF' := WFS_dispatch s B hWFv
  have hvn : (lookupGroup (dispatch s B).1 s.NextGroupID).isSome = true :=
    (dispatch_lookup_isSome s B s.NextGroupID).2 (Or.inl ⟨hCB, rfl⟩)
  refine ⟨⟨w0, ?_, ?_, hWF', ?_, ?_, Or.inl hCL', Or.inl hCLB'⟩, hsnd⟩
  · rw [hCLB']
  · rw [hCLB', hCL']
  · rw [hCL']; exact hvn
  · rw [hCLB']; exact hvn

/-- C2 (amended): once a load barrier `B` (a may-load instruction carrying
the load-barrier flag) is dispatched, the group of every instruction
dispatched after it is transitively reachable, along successor edges, from
`B`'s group.  (For store barriers the claim as stated fails; see the
counterexample.) -/
theorem claim2_amended (lq sq : Nat) (na : Bool) (pre mid : List Instr) (B i : Instr)
    (hBL : B.Desc.MayLoad = true) (hBB : B.IsALoadBarrier = true) :
    Relation.TransGen
      (succEdge (dispatch (dispatchAll (dispatch (dispatchAll (initLSU lq sq na) pre) B).1 mid) i).1)
      ((dispatch (dispatchAll (initLSU lq sq na) pre) B).2)
      ((dispatch (dispatchAll (dispatch (dispatchAll (initLSU lq sq na) pre) B).1 mid) i).2) := by
  have hWF1 := WFS_dispatchAll pre (initLSU lq sq na) (WFS_init lq sq na)
  obtain ⟨hInv2, hsnd⟩ := InvB_establish _ B hWF1 hBL hBB
  have hInv3 := InvB_run mid _ _ hInv2
  have hstep := (InvB_step _ _ i hInv3).2
  rw [hsnd]
  exact hstep

/-- C2 (counterexample to the claim as stated): after the store barrier
`SB@0/4` (group 1) a later load `L@100/8` with disjoint metadata gets group 2
with no predecessors: group 2 is not reachable from the barrier's group 1,
not even reflexively-transitively. -/
theorem claim2_counterexample :
    (dispatch (initLSU 4 4 false) ⟨⟨false, true⟩, true, false, some ⟨true, 0, 4, none⟩, 0⟩).2 = 1 ∧
    (dispatch (dispatch (initLSU 4 4 false) ⟨⟨false, true⟩, true, false, some ⟨true, 0, 4, none⟩, 0⟩).1
      ⟨⟨true, false⟩, false, false, some ⟨false, 100, 8, none⟩, 0⟩).2 = 2 ∧
    ¬ Relation.ReflTransGen
        (succEdge (dispatchAll (initLSU 4 4 false)
          [⟨⟨false, true⟩, true, false, some ⟨true, 0, 4, none⟩, 0⟩,
           ⟨⟨true, false⟩, false, false, some ⟨false, 100, 8, none⟩, 0⟩])) 1 2 := by
  refine ⟨by decide, by decide, ?_⟩
  intro hreach
  have hempty : (getGroup (dispatchAll (initLSU 4 4 false)
      [⟨⟨false, true⟩, true, false, some ⟨true, 0, 4, none⟩, 0⟩,
       ⟨⟨true, false⟩, false, false, some ⟨false, 100, 8, none⟩, 0⟩]) 1).Succs = [] := by decide
  rcases hreach.cases_head with h12 | ⟨c, hac, _⟩
  · exact absurd h12 (by decide)
  · obtain ⟨g, d, hg, hmem⟩ := hac
    have hgg : getGroup (dispatchAll (initLSU 4 4 false)
        [⟨⟨false, true⟩, true, false, some ⟨true, 0, 4, none⟩, 0⟩,
         ⟨⟨true, false⟩, false, false, some ⟨false, 100, 8, none⟩, 0⟩]) 1 = g := by
      simp only [getGroup, lookupGroup, hg, Option.getD_some]
    rw [← hgg, hempty] at hmem
    exact absurd hmem (List.not_mem_nil _)

/-- C2 witness: the load barrier `LB` (group 1) followed by the load `L@0/8`
(group 2): group 2 is transitively reachable from group 1. -/
theorem claim2_witness :
    Relation.TransGen
      (succEdge (dispatch (dispatchAll (dispatch (dispatchAll (initLSU 4 4 false) [])
          ⟨⟨true, false⟩, false, true, none, 0⟩).1 [])
        ⟨⟨true, false⟩, false, false, some ⟨false, 0, 8, none⟩, 0⟩).1)
      ((dispatch (dispatchAll (initLSU 4 4 false) []) ⟨⟨true, false⟩, false, true, none, 0⟩).2)
      ((dispatch (dispatchAll (dispatch (dispatchAll (initLSU 4 4 false) [])
          ⟨⟨true, false⟩, false, true, none, 0⟩).1 [])
        ⟨⟨true, false⟩, false, false, some ⟨false, 0, 8, none⟩, 0⟩).2) :=
  claim2_amended 4 4 false [] [] ⟨⟨true, false⟩, false, true, none, 0⟩
    ⟨⟨true, false⟩, false, false, some ⟨false, 0, 8, none⟩, 0⟩ rfl rfl
